import Mathlib

/-!
# Verification of the fastygo/backend offline-resilient write path

A shallow embedding, in Lean 4, of the buffer store, drain scheduler,
operation-buffer bridge, repositories, and health handler of the
fastygo/backend repository, together with proofs settling the frozen
claims about the natural-language specification.

Conventions of the embedding:
* Go strings are Lean `String`; byte-wise comparison of Go strings and
  `[]byte` keys is modelled by lexicographic comparison of the character
  lists (UTF-8 byte order coincides with code-point order).
* `time.Time` values are modelled by their `UnixNano` value as `Int`;
  the zero `time.Time` (`IsZero`) is modelled by the value `0`.
* Effectful inputs (`time.Now()`, `uuid.NewString()`) become explicit
  parameters.  Failure of BoltDB transactions is modelled by boolean
  oracles: a failed `Update` leaves the store unchanged.
* The BoltDB bucket is a list of `(key, value)` entries kept in
  ascending key order, matching cursor iteration order.
-/

deriving instance DecidableEq for Except

namespace Fastygo

/-! ## Decimal rendering, as produced by `fmt.Sprintf` verbs `%d` and `%020d` -/

/-- Decimal digit characters of `n`, most significant first, computed with a
fuel argument so that the definition is structurally recursive (the fuel
`n + 1` always suffices).  This is the output of Go's `%d` verb for a
non-negative integer. -/
def decReprAux : Nat → Nat → List Char
  | 0, _ => []
  | fuel + 1, n =>
    if n < 10 then [Nat.digitChar n]
    else decReprAux fuel (n / 10) ++ [Nat.digitChar (n % 10)]

/-- Decimal digit characters of `n`, most significant first. -/
def decRepr (n : Nat) : List Char := decReprAux (n + 1) n

/-- Left-pad a character list with `'0'` up to width `w` (Go `%0wd` padding of
the digit string of a non-negative number). -/
def pad0 (w : Nat) (s : List Char) : List Char :=
  List.replicate (w - s.length) '0' ++ s

/-- Go `%d` for an `int64`. -/
def intRepr (i : Int) : List Char :=
  if i < 0 then '-' :: decRepr i.natAbs else decRepr i.natAbs

/-- Go `%020d` for an `int64`: the minus sign counts toward the width. -/
def padInt (w : Nat) (i : Int) : List Char :=
  if i < 0 then '-' :: pad0 (w - 1) (decRepr i.natAbs) else pad0 w (decRepr i.natAbs)

/-- Byte-wise (lexicographic) strict comparison of two character lists:
the order in which a BoltDB cursor iterates keys, and the order of Go's
`bytes.Compare` / string `<`. -/
def lexLt : List Char → List Char → Bool
  | [], [] => false
  | [], _ :: _ => true
  | _ :: _, [] => false
  | a :: as, b :: bs =>
    if a < b then true
    else if a = b then lexLt as bs
    else false

/-! ## The buffer item (`internal/infrastructure/buffer`, `Item`) -/

/-- A domain user (`domain.User`).  `Metadata` maps are modelled as
association lists, timestamps as `UnixNano` integers. -/
structure User where
  id : String
  email : String
  role : String
  status : String
  metadata : List (String × String)
  createdAt : Int
  updatedAt : Int
deriving DecidableEq, Repr

/-- A domain task (`domain.Task`). -/
structure Task where
  id : String
  userID : String
  title : String
  description : String
  status : String
  priority : Int
  dueDate : Option Int
  metadata : List (String × String)
  createdAt : Int
  updatedAt : Int
deriving DecidableEq, Repr

/-- The serialized payload carried in `Item.Data` (`json.RawMessage`).
A payload either deserializes to a value of its domain type or it does
not; `malformed` stands for bytes on which `json.Unmarshal` fails for
the target type. -/
inductive Payload where
  | userPayload (u : User)
  | taskPayload (t : Task)
  | malformed (raw : String)
deriving DecidableEq, Repr

/-- `json.Unmarshal(item.Data, &user)`. -/
def decodeUser : Payload → Option User
  | .userPayload u => some u
  | _ => none

/-- `json.Unmarshal(item.Data, &task)`. -/
def decodeTask : Payload → Option Task
  | .taskPayload t => some t
  | _ => none

/-- The Go constants `buffer.EntityProfile`, `buffer.EntityTask`,
`buffer.OperationCreate`, `buffer.OperationUpdate`, `buffer.OperationDelete`. -/
def entityProfile : String := "profile"

def entityTask : String := "task"

def operationCreate : String := "create"

def operationUpdate : String := "update"

def operationDelete : String := "delete"

/-- `buffer.Item`.  `retries` is a `Nat`: every item is constructed by the
bridge with `Retries` equal to Go's zero value `0` and the drain loop only
increments it, so reachable values are non-negative.  `bucketKey` is the
unexported storage-handle field; it is not serialized (`none` in stored
values) and is set by `GetBatch` from the cursor key. -/
structure Item where
  id : String
  userID : String
  entity : String
  operation : String
  data : Payload
  priority : Int
  retries : Nat
  timestamp : Int
  bucketKey : Option (List Char)
deriving DecidableEq, Repr

/-- `buildKey`: `fmt.Sprintf("%d_%020d_%s", item.Priority, item.Timestamp.UnixNano(), item.ID)`. -/
def buildKey (item : Item) : List Char :=
  intRepr item.priority ++ '_' :: (padInt 20 item.timestamp ++ '_' :: item.id.data)

/-- `(*Item).normalize`: assign a fresh id if empty, clamp the priority to 3
when outside `(0, 5]`, and stamp the current time if the timestamp is zero.
`freshID` models `uuid.NewString()` and `now` models `time.Now()`. -/
def Item.normalize (freshID : String) (now : Int) (i : Item) : Item :=
  let i := if i.id = "" then { i with id := freshID } else i
  let i := if i.priority ≤ 0 ∨ 5 < i.priority then { i with priority := 3 } else i
  if i.timestamp = 0 then { i with timestamp := now } else i

/-! ## The buffer store (`internal/infrastructure/buffer`, `Store`)

The BoltDB bucket is modelled as a list of `(key, stored item)` entries in
ascending key order.  `tx.Bucket(..).Put` replaces the value when the key
exists and otherwise inserts keeping the order; `Delete` removes the key;
a cursor iterates entries in key order. -/

/-- One bucket: entries in ascending key order. -/
abbrev Store := List (List Char × Item)

/-- `Put` into the bucket: replace on an equal key, otherwise insert in key
order. -/
def putEntry : Store → List Char → Item → Store
  | [], k, v => [(k, v)]
  | (k', v') :: rest, k, v =>
    if lexLt k k' then (k, v) :: (k', v') :: rest
    else if k = k' then (k, v) :: rest
    else (k', v') :: putEntry rest k v

/-- `Delete` of a key from the bucket. -/
def delKey (s : Store) (k : List Char) : Store :=
  s.filter (fun e => e.1 ≠ k)

/-- The serialized form of an item: `json.Marshal` omits the unexported
`bucketKey` field. -/
def Item.stored (i : Item) : Item := { i with bucketKey := none }

/-- `Store.Enqueue`: normalize, build the priority key, and `Put` the
serialized item under it. -/
def enqueue (freshID : String) (now : Int) (s : Store) (item : Item) : Store :=
  let item := item.normalize freshID now
  putEntry s (buildKey item) item.stored

/-- `GetBatch`'s limit normalization: a non-positive limit becomes 50. -/
def batchLimit (limit : Int) : Nat :=
  if limit ≤ 0 then 50 else limit.toNat

/-- `Store.GetBatch`: up to `limit` items in cursor (key) order, without
removing them; each carries its storage key in `bucketKey`. -/
def getBatch (limit : Int) (s : Store) : List Item :=
  (s.take (batchLimit limit)).map (fun e => { e.2 with bucketKey := some e.1 })

/-- `deleteByID`: cursor scan in key order, delete the first entry whose
item id matches, no-op for the empty id. -/
def delFirstByID : Store → String → Store
  | [], _ => []
  | e :: rest, i => if e.2.id = i then rest else e :: delFirstByID rest i

/-- `Store.deleteByID`. -/
def deleteByID (s : Store) (i : String) : Store :=
  if i = "" then s else delFirstByID s i

/-- `Store.Remove`: delete by the storage handle, falling back to deletion
by id when the handle is absent. -/
def remove (s : Store) (item : Item) : Store :=
  match item.bucketKey with
  | none => deleteByID s item.id
  | some k => delKey s k

/-- `Store.Requeue`: clear the handle, bump the timestamp to `now`, and
`Enqueue` again.  Note that it performs no removal. -/
def requeue (freshID : String) (now : Int) (s : Store) (item : Item) : Store :=
  enqueue freshID now s { item with bucketKey := none, timestamp := now }

/-- `Store.Size`. -/
def storeSize (s : Store) : Nat := s.length

/-! ## Repositories (`repository/postgres`)

The `users` and `tasks` tables are association lists from the primary-key
column `id` to the row.  `up = false` models an unreachable primary store:
every SQL statement then fails with `unavailable` and changes nothing.
Row timestamps produced by SQL `NOW()` are the explicit `now` argument. -/

/-- Errors surfaced by the repository layer. -/
inductive RepoErr where
  | unavailable
  | userNotFound
  | taskNotFound
  | duplicateKey
  | invalidPayload
deriving DecidableEq, Repr

/-- The primary row store. -/
structure Repos where
  up : Bool
  users : List (String × User)
  tasks : List (String × Task)
deriving DecidableEq, Repr

/-- Replace the value bound to `k`, or append the binding. -/
def setAssoc {α : Type} : List (String × α) → String → α → List (String × α)
  | [], k, v => [(k, v)]
  | (k', v') :: rest, k, v =>
    if k' = k then (k, v) :: rest else (k', v') :: setAssoc rest k v

/-- Look up a key in an association list. -/
def getAssoc {α : Type} : List (String × α) → String → Option α
  | [], _ => none
  | (k', v') :: rest, k => if k' = k then some v' else getAssoc rest k

/-- Remove a key from an association list. -/
def delAssoc {α : Type} (l : List (String × α)) (k : String) : List (String × α) :=
  l.filter (fun e => e.1 ≠ k)

/-- `userRepository.Upsert`: `INSERT .. VALUES (.., COALESCE($6, NOW()), NOW())
ON CONFLICT (id) DO UPDATE SET email, role, status, metadata, updated_at = NOW()`.
The conflict branch leaves `created_at` untouched. -/
def upsertUser (r : Repos) (u : User) (now : Int) : Except RepoErr Repos :=
  if !r.up then .error .unavailable
  else
    match getAssoc r.users u.id with
    | none =>
        let created := if u.createdAt = 0 then now else u.createdAt
        let row := { u with createdAt := created, updatedAt := now }
        .ok { r with users := setAssoc r.users u.id row }
    | some old =>
        let row := { u with createdAt := old.createdAt, updatedAt := now }
        .ok { r with users := setAssoc r.users u.id row }

/-- `taskRepository.Create`: assign a fresh id when empty, then a plain
`INSERT INTO tasks (id, ..)` — the `id` column is the primary key, so an
existing id fails with a unique violation.  Returns the created row. -/
def createTask (r : Repos) (t : Task) (freshID : String) (now : Int) :
    Except RepoErr (Repos × Task) :=
  let t := if t.id = "" then { t with id := freshID } else t
  if !r.up then .error .unavailable
  else
    match getAssoc r.tasks t.id with
    | some _ => .error .duplicateKey
    | none =>
        let row := { t with createdAt := now, updatedAt := now }
        .ok ({ r with tasks := setAssoc r.tasks t.id row }, row)

/-- `taskRepository.Update`: `UPDATE tasks SET title, description, status,
priority, due_date, metadata, updated_at = NOW() WHERE id = $1 RETURNING ..`;
zero rows surface as `ErrTaskNotFound`.  `user_id` and `created_at` are not
touched. -/
def updateTask (r : Repos) (t : Task) (now : Int) : Except RepoErr Repos :=
  if !r.up then .error .unavailable
  else
    match getAssoc r.tasks t.id with
    | none => .error .taskNotFound
    | some old =>
        let row := { t with userID := old.userID, createdAt := old.createdAt,
                            updatedAt := now }
        .ok { r with tasks := setAssoc r.tasks t.id row }

/-- `taskRepository.Delete`: `DELETE FROM tasks WHERE id = $1`; zero affected
rows surface as `ErrTaskNotFound`. -/
def deleteTask (r : Repos) (i : String) : Except RepoErr Repos :=
  if !r.up then .error .unavailable
  else
    match getAssoc r.tasks i with
    | none => .error .taskNotFound
    | some _ => .ok { r with tasks := delAssoc r.tasks i }

/-! ## The buffer processor (`internal/services`, `BufferProcessor`) -/

/-- Failures of `processItem`. -/
inductive ApplyErr where
  | decodeFailed
  | repoErr (e : RepoErr)
  | unsupportedOperation (op : String)
  | unsupportedEntity (e : String)
deriving DecidableEq, Repr

/-- `ProcessorConfig`; the interval is in nanoseconds. -/
structure ProcessorConfig where
  interval : Int
  batchSize : Int
  maxRetries : Int
deriving DecidableEq, Repr

/-- The config normalization performed by `NewBufferProcessor`: non-positive
fields fall back to 30 s, 50 and 3. -/
def normalizeConfig (cfg : ProcessorConfig) : ProcessorConfig :=
  { interval := if cfg.interval ≤ 0 then 30 * 1000000000 else cfg.interval
    batchSize := if cfg.batchSize ≤ 0 then 50 else cfg.batchSize
    maxRetries := if cfg.maxRetries ≤ 0 then 3 else cfg.maxRetries }

/-- `BufferProcessor.processItem`: dispatch by `(entity, operation)`; a
payload that fails to deserialize returns the unmarshal error before any
repository call.  On success the new repository state is returned; Go's
error returns carry no state change. -/
def processItem (freshID : String) (now : Int) (r : Repos) (item : Item) :
    Except ApplyErr Repos :=
  if item.entity = entityProfile then
    match decodeUser item.data with
    | none => .error .decodeFailed
    | some u =>
        match upsertUser r u now with
        | .ok r' => .ok r'
        | .error e => .error (.repoErr e)
  else if item.entity = entityTask then
    match decodeTask item.data with
    | none => .error .decodeFailed
    | some t =>
        if item.operation = operationCreate then
          match createTask r t freshID now with
          | .ok (r', _) => .ok r'
          | .error e => .error (.repoErr e)
        else if item.operation = operationUpdate then
          match updateTask r t now with
          | .ok r' => .ok r'
          | .error e => .error (.repoErr e)
        else if item.operation = operationDelete then
          match deleteTask r t.id with
          | .ok r' => .ok r'
          | .error e => .error (.repoErr e)
        else .error (.unsupportedOperation item.operation)
  else .error (.unsupportedEntity item.entity)

/-- What happened to one drained item (the log line it would emit). -/
inductive DrainEvent where
  | skippedOffline
  | applied (id : String) (removed : Bool)
  | droppedMaxRetries (id : String) (removed : Bool)
  | requeued (id : String) (removed requeued : Bool)
deriving DecidableEq, Repr

/-- Environment of one drain tick: per-position sources for `uuid.NewString`
and `time.Now`, and outcome oracles for the `Remove` and `Requeue` BoltDB
transactions (`false` = the transaction returns an error and changes
nothing). -/
structure DrainEnv where
  freshID : Nat → String
  nowAt : Nat → Int
  remOk : Nat → Bool
  reqOk : Nat → Bool

/-- The body of the `for _, item := range items` loop in `Drain` for one
item.  On a failed apply the local retry counter is incremented; at or
above `maxRetries` the item is removed and dropped; below it the item is
removed and then requeued with a refreshed timestamp.  Errors of `Remove`
and `Requeue` are logged and otherwise ignored. -/
def drainStep (maxRetries : Int) (freshID : String) (now : Int)
    (remOk reqOk : Bool) (r : Repos) (s : Store) (item : Item) :
    Repos × Store × DrainEvent :=
  match processItem freshID now r item with
  | .ok r' =>
      let s' := if remOk then remove s item else s
      (r', s', .applied item.id remOk)
  | .error _ =>
      let item' := { item with retries := item.retries + 1 }
      if maxRetries ≤ (item'.retries : Int) then
        let s' := if remOk then remove s item' else s
        (r, s', .droppedMaxRetries item.id remOk)
      else
        let s1 := if remOk then remove s item' else s
        let s2 := if reqOk then requeue freshID now s1 item' else s1
        (r, s2, .requeued item.id remOk reqOk)

/-- The `for` loop of `Drain` over the whole batch, threading repository and
store state and collecting one event per item. -/
def drainItems (maxRetries : Int) (env : DrainEnv) :
    Nat → Repos → Store → List Item → Repos × Store × List DrainEvent
  | _, r, s, [] => (r, s, [])
  | idx, r, s, item :: rest =>
      let (r', s', ev) :=
        drainStep maxRetries (env.freshID idx) (env.nowAt idx)
          (env.remOk idx) (env.reqOk idx) r s item
      let (r'', s'', evs) := drainItems maxRetries env (idx + 1) r' s' rest
      (r'', s'', ev :: evs)

/-- `BufferProcessor.Drain`, one tick: skip when a configured monitor
reports offline (`bp.monitor != nil && !bp.monitor.IsOnline()`), otherwise
read a batch and process it.  The monitor is `none` when `bp.monitor` is
nil, `some b` when configured with `IsOnline() = b`. -/
def drainTick (monitor : Option Bool) (cfg : ProcessorConfig) (env : DrainEnv)
    (r : Repos) (s : Store) : Repos × Store × List DrainEvent :=
  match monitor with
  | some false => (r, s, [.skippedOffline])
  | _ => drainItems cfg.maxRetries env 0 r s (getBatch cfg.batchSize s)

/-- Result tag of `BufferOperation`. -/
inductive BufferOpResult where
  | appliedImmediately
  | enqueued
deriving DecidableEq, Repr

/-- `BufferProcessor.BufferOperation`: when the monitor is nil or reports
online, attempt the immediate apply and return on success; otherwise (or on
failure) enqueue the item. -/
def bufferOperation (monitor : Option Bool) (freshID : String) (now : Int)
    (r : Repos) (s : Store) (item : Item) : Repos × Store × BufferOpResult :=
  if monitor = none ∨ monitor = some true then
    match processItem freshID now r item with
    | .ok r' => (r', s, .appliedImmediately)
    | .error _ => (r, enqueue freshID now s item, .enqueued)
  else (r, enqueue freshID now s item, .enqueued)

/-! ## The bridge (`internal/services`, `BufferBridge`) -/

/-- `BufferBridge.BufferProfile`: serialize the user as payload, priority 3,
remaining fields at their Go zero values. -/
def bufferProfileItem (operation : String) (u : User) : Item :=
  { id := "", userID := u.id, entity := entityProfile, operation := operation
    data := .userPayload u, priority := 3, retries := 0, timestamp := 0
    bucketKey := none }

/-- `BufferBridge.BufferTask`: serialize the task as payload, priority 4. -/
def bufferTaskItem (operation : String) (t : Task) : Item :=
  { id := t.id, userID := t.userID, entity := entityTask, operation := operation
    data := .taskPayload t, priority := 4, retries := 0, timestamp := 0
    bucketKey := none }

/-! ## The task use case (`usecase/task`, `UseCase.DeleteTask`) -/

/-- `UseCase.DeleteTask`: call the repository delete; `ErrTaskNotFound`
is returned to the caller as-is (no buffering); any other error is
absorbed by buffering a `(task, delete)` record, after which the use case
reports success.  Returns the repository, the buffer store, and the error
surfaced to the handler (`none` = success). -/
def deleteTaskUC (monitor : Option Bool) (freshID : String) (now : Int)
    (r : Repos) (s : Store) (i : String) : Repos × Store × Option RepoErr :=
  match deleteTask r i with
  | .ok r' => (r', s, none)
  | .error e =>
      if e = .taskNotFound then (r, s, some .taskNotFound)
      else
        let item := bufferTaskItem operationDelete
          { id := i, userID := "", title := "", description := "", status := ""
            priority := 0, dueDate := none, metadata := [], createdAt := 0
            updatedAt := 0 }
        let (r', s', _) := bufferOperation monitor freshID now r s item
        (r', s', none)

/-! ## Health monitor snapshot and handler
(`internal/infrastructure/monitor`, `api/handler` `HealthHandler.Check`) -/

/-- `monitor.Status`, the health snapshot. -/
structure Status where
  postgreSQL : Bool
  redis : Bool
  buffer : Bool
  bufferSize : Int
  lastCheck : Int
deriving DecidableEq, Repr

/-- `Monitor.IsOnline`: both primary stores up. -/
def isOnline (st : Status) : Bool := st.postgreSQL && st.redis

/-- The services payload assembled by `HealthHandler.Check`. -/
structure HealthPayload where
  timestamp : Int
  postgresql : Bool
  redis : Bool
  bufferOnline : Bool
  bufferSize : Int
deriving DecidableEq, Repr

/-- The HTTP response of the health endpoint: status code, optional error
code, and the services payload. -/
structure HealthResponse where
  status : Nat
  errCode : Option String
  payload : HealthPayload
deriving DecidableEq, Repr

/-- `HealthHandler.Check`: read the snapshot, build the payload, and answer
200 on `PostgreSQL && Redis`, else 503 with code `DEGRADED` and the same
payload.  The snapshot is returned unchanged: the handler reads a copy and
performs no writes. -/
def healthCheck (st : Status) (now : Int) : Status × HealthResponse :=
  let payload : HealthPayload :=
    { timestamp := now, postgresql := st.postgreSQL, redis := st.redis
      bufferOnline := st.buffer, bufferSize := st.bufferSize }
  if st.postgreSQL && st.redis then
    (st, { status := 200, errCode := none, payload := payload })
  else
    (st, { status := 503, errCode := some ("DEGRADED"), payload := payload })

/-! ## Proof-layer definitions -/

/-- Fixed-width decimal rendering, peeling the most significant digit; the
reformulation of `%0wd` used in the ordering proofs. -/
def padDec : Nat → Nat → List Char
  | 0, _ => []
  | w + 1, n => Nat.digitChar (n / 10 ^ w) :: padDec w (n % 10 ^ w)

/-- The value ranges guaranteed by `normalize` and by `time.Time.UnixNano`:
priority in `[1, 5]`, timestamp a non-negative `int64` (so below `10^20`,
the width `%020d` pads to). -/
def InKeyRange (i : Item) : Prop :=
  1 ≤ i.priority ∧ i.priority ≤ 5 ∧ 0 ≤ i.timestamp ∧ i.timestamp < 10 ^ 20

instance (i : Item) : Decidable (InKeyRange i) := by
  unfold InKeyRange
  exact inferInstance

/-- Strict ordering of the logical tuple `(priority, enqueued_at, id)`,
with the id component compared byte-wise as Go does. -/
def tupleLt (a b : Item) : Prop :=
  a.priority < b.priority ∨
    (a.priority = b.priority ∧
      (a.timestamp < b.timestamp ∨
        (a.timestamp = b.timestamp ∧ lexLt a.id.data b.id.data = true)))

instance (a b : Item) : Decidable (tupleLt a b) := by
  unfold tupleLt
  exact inferInstance

/-- Entries pairwise in strictly ascending key order (the BoltDB bucket
invariant; cursors iterate in this order). -/
def storeOrdered (s : Store) : Prop :=
  List.Pairwise (fun e₁ e₂ => lexLt e₁.1 e₂.1 = true) s

/-- A well-formed entry: the key is the priority key of the stored item,
the item is in the normalized ranges, and the serialized item carries no
handle. -/
def entryWF (e : List Char × Item) : Prop :=
  e.1 = buildKey e.2 ∧ InKeyRange e.2 ∧ e.2.bucketKey = none

/-- The store invariant maintained by `Enqueue`/`Remove`/`Requeue`. -/
def storeWF (s : Store) : Prop :=
  (∀ e ∈ s, entryWF e) ∧ storeOrdered s

/-- Timestamps a store may contain: what `time.Now().UnixNano()` produces. -/
def TimeOK (t : Int) : Prop := 0 < t ∧ t < 10 ^ 20

instance (t : Int) : Decidable (TimeOK t) := by
  unfold TimeOK
  exact inferInstance

/-- Whether an item with the given id is visible in the store. -/
def containsID (s : Store) (i : String) : Bool :=
  s.any (fun e => e.2.id == i)

/-- Every event of a processed batch stands for one apply attempt; only the
offline skip marker does not. -/
def isApplyEvent : DrainEvent → Bool
  | .skippedOffline => false
  | _ => true

/-- Number of apply attempts recorded in a tick's event list. -/
def applyCount (evs : List DrainEvent) : Nat :=
  (evs.filter isApplyEvent).length

/-- The item as it stands after one failed drain pass: retry counter bumped
by one and timestamp refreshed. -/
def bumped (itm : Item) (now : Int) : Item :=
  { itm with retries := itm.retries + 1, timestamp := now, bucketKey := none }

/-- Run `n` online drain ticks, threading repository and store state and
accumulating the emitted events. -/
def runTicks (cfg : ProcessorConfig) (env : DrainEnv) :
    Nat → Repos × Store × List DrainEvent → Repos × Store × List DrainEvent
  | 0, st => st
  | n + 1, st =>
      let t := drainTick (some true) cfg env st.1 st.2.1
      runTicks cfg env n (t.1, t.2.1, st.2.2 ++ t.2.2)

/-! ## Concrete fixtures used by witnesses and counterexamples -/

/-- A concrete user row. -/
def userU1 : User :=
  { id := "u1", email := "", role := "admin", status := "active"
    metadata := [], createdAt := 0, updatedAt := 0 }

/-- A concrete task row (spec scenario S2). -/
def taskT1 : Task :=
  { id := "t1", userID := "u1", title := "x", description := ""
    status := "pending", priority := 3, dueDate := none, metadata := []
    createdAt := 0, updatedAt := 0 }

/-- A buffered profile update enqueued late (priority 3, timestamp 500). -/
def itemA : Item :=
  { id := "a", userID := "u1", entity := entityProfile
    operation := operationUpdate, data := .userPayload userU1
    priority := 3, retries := 0, timestamp := 500, bucketKey := none }

/-- A buffered task create enqueued early (priority 4, timestamp 100). -/
def itemB : Item :=
  { id := "b", userID := "u1", entity := entityTask
    operation := operationCreate, data := .taskPayload taskT1
    priority := 4, retries := 0, timestamp := 100, bucketKey := none }

/-- A second profile/task pair for witnesses. -/
def itemC : Item :=
  { id := "p", userID := "u2", entity := entityProfile
    operation := operationUpdate, data := .userPayload userU1
    priority := 3, retries := 0, timestamp := 900, bucketKey := none }

def itemD : Item :=
  { id := "q", userID := "u2", entity := entityTask
    operation := operationDelete, data := .taskPayload taskT1
    priority := 4, retries := 0, timestamp := 7, bucketKey := none }

/-- A buffered item whose payload does not deserialize as a task. -/
def poisonItem : Item :=
  { id := "p1", userID := "u1", entity := entityTask
    operation := operationCreate, data := .malformed ("xx")
    priority := 4, retries := 0, timestamp := 100, bucketKey := none }

/-- The skeletal task carried by a buffered delete (only the id matters). -/
def taskT9 : Task :=
  { id := "t9", userID := "", title := "", description := "", status := ""
    priority := 0, dueDate := none, metadata := [], createdAt := 0
    updatedAt := 0 }

/-- A buffered task delete for an id absent from the row store. -/
def delItem : Item :=
  { id := "t9", userID := "u1", entity := entityTask
    operation := operationDelete, data := .taskPayload taskT9
    priority := 4, retries := 0, timestamp := 100, bucketKey := none }

/-- An empty, reachable primary store. -/
def reposUp : Repos := { up := true, users := [], tasks := [] }

/-- An unreachable primary store. -/
def reposDown : Repos := { up := false, users := [], tasks := [] }

/-- A drain environment whose store transactions all succeed. -/
def envOK : DrainEnv :=
  { freshID := fun _ => "fresh", nowAt := fun _ => 200
    remOk := fun _ => true, reqOk := fun _ => true }

/-- The default configuration `NewBufferProcessor` falls back to. -/
def cfgDefault : ProcessorConfig :=
  normalizeConfig { interval := 0, batchSize := 0, maxRetries := 0 }

/-- The repository state after upserting `userU1` at instant 5. -/
def reposU1 : Repos :=
  { up := true
    users := [("u1", { userU1 with createdAt := 5, updatedAt := 5 })]
    tasks := [] }

/-- The repository state after upserting `userU1` at instant 1. -/
def reposU1At1 : Repos :=
  { up := true
    users := [("u1", { userU1 with createdAt := 1, updatedAt := 1 })]
    tasks := [] }

/-- The repository state after creating `taskT1` at instant 10. -/
def reposT1 : Repos :=
  { up := true, users := []
    tasks := [("t1", { taskT1 with createdAt := 10, updatedAt := 10 })] }

/-- A snapshot with the primary row store down. -/
def stBad : Status :=
  { postgreSQL := false, redis := true, buffer := true
    bufferSize := 0, lastCheck := 0 }

/-! ## Lemmas about decimal rendering -/

theorem decReprAux_congr : ∀ f₁ f₂ n, n < f₁ → n < f₂ →
    decReprAux f₁ n = decReprAux f₂ n := by
  intro f₁
  induction f₁ with
  | zero => intro f₂ n h; omega
  | succ f ih =>
    intro f₂ n h₁ h₂
    match f₂, h₂ with
    | f₂' + 1, _ =>
      simp only [decReprAux]
      by_cases h10 : n < 10
      · simp [h10]
      · simp only [h10, if_false]
        have hd : n / 10 < n := Nat.div_lt_self (by omega) (by omega)
        rw [ih f₂' (n / 10) (by omega) (by omega)]

theorem decRepr_lt10 {n : Nat} (h : n < 10) : decRepr n = [Nat.digitChar n] := by
  simp [decRepr, decReprAux, h]

theorem decRepr_ge10 {n : Nat} (h : 10 ≤ n) :
    decRepr n = decRepr (n / 10) ++ [Nat.digitChar (n % 10)] := by
  have hd : n / 10 < n := Nat.div_lt_self (by omega) (by omega)
  have h1 : decRepr n = decReprAux n (n / 10) ++ [Nat.digitChar (n % 10)] := by
    simp [decRepr, decReprAux, Nat.not_lt.mpr h]
  rw [h1, decReprAux_congr n (n / 10 + 1) (n / 10) (by omega) (by omega)]
  rfl

theorem padDec_length : ∀ w n, (padDec w n).length = w := by
  intro w
  induction w with
  | zero => intro n; rfl
  | succ w ih => intro n; simp [padDec, ih]

theorem padDec_zero : ∀ w, padDec w 0 = List.replicate w '0' := by
  intro w
  induction w with
  | zero => rfl
  | succ w ih =>
    simp only [padDec, Nat.zero_div, Nat.zero_mod, ih, List.replicate_succ]
    rfl

theorem padDec_succ_last : ∀ w n, n < 10 ^ (w + 1) →
    padDec (w + 1) n = padDec w (n / 10) ++ [Nat.digitChar (n % 10)] := by
  intro w
  induction w with
  | zero =>
    intro n h
    have : n % 10 = n := Nat.mod_eq_of_lt (by simpa using h)
    simp [padDec, this]
  | succ w ih =>
    intro n h
    have hten : (10 : Nat) ∣ 10 ^ (w + 1) := by
      exact Dvd.intro (10 ^ w) (by rw [pow_succ]; ring)
    have hmod10 : n % 10 ^ (w + 1) % 10 = n % 10 := Nat.mod_mod_of_dvd n hten
    have hdiv : n % 10 ^ (w + 1) / 10 = n / 10 % 10 ^ w := by
      have h1 : (10 : Nat) ^ (w + 1) = 10 * 10 ^ w := by rw [pow_succ]; ring
      rw [h1, Nat.mod_mul_right_div_self]
    have hdd : n / 10 / 10 ^ w = n / 10 ^ (w + 1) := by
      rw [Nat.div_div_eq_div_mul, ← pow_succ']
    have hmm : n / 10 % 10 ^ w = n % 10 ^ (w + 1) / 10 := hdiv.symm
    have ihm := ih (n % 10 ^ (w + 1)) (Nat.mod_lt n (by positivity))
    calc padDec (w + 1 + 1) n
        = Nat.digitChar (n / 10 ^ (w + 1)) :: padDec (w + 1) (n % 10 ^ (w + 1)) := rfl
      _ = Nat.digitChar (n / 10 ^ (w + 1)) ::
            (padDec w (n % 10 ^ (w + 1) / 10) ++ [Nat.digitChar (n % 10 ^ (w + 1) % 10)]) := by
            rw [ihm]
      _ = Nat.digitChar (n / 10 / 10 ^ w) ::
            (padDec w (n / 10 % 10 ^ w) ++ [Nat.digitChar (n % 10)]) := by
            rw [hmod10, hdiv, hdd]
      _ = padDec (w + 1) (n / 10) ++ [Nat.digitChar (n % 10)] := rfl

theorem pad0_decRepr_eq_padDec : ∀ n w, n < 10 ^ (w + 1) →
    pad0 (w + 1) (decRepr n) = padDec (w + 1) n := by
  intro n
  induction n using Nat.strong_induction_on with
  | _ n ih =>
    intro w h
    by_cases h10 : n < 10
    · rw [decRepr_lt10 h10]
      have h1 : n / 10 = 0 := Nat.div_eq_of_lt h10
      have h2 : n % 10 = n := Nat.mod_eq_of_lt h10
      rw [padDec_succ_last w n h, h1, h2, padDec_zero]
      simp [pad0]
    · push_neg at h10
      rw [decRepr_ge10 h10]
      have hw : w ≠ 0 := by
        rintro rfl
        simp at h
        omega
      obtain ⟨w', rfl⟩ : ∃ w', w = w' + 1 := ⟨w - 1, by omega⟩
      have hlt : n / 10 < 10 ^ (w' + 1) := by
        apply Nat.div_lt_of_lt_mul
        calc n < 10 ^ (w' + 1 + 1) := h
          _ = 10 * 10 ^ (w' + 1) := by ring
      have ihh := ih (n / 10) (Nat.div_lt_self (by omega) (by omega)) w' hlt
      have hlen : (decRepr (n / 10) ++ [Nat.digitChar (n % 10)]).length
          = (decRepr (n / 10)).length + 1 := by simp
      calc pad0 (w' + 1 + 1) (decRepr (n / 10) ++ [Nat.digitChar (n % 10)])
          = List.replicate (w' + 1 + 1 - ((decRepr (n / 10)).length + 1)) '0' ++
              (decRepr (n / 10) ++ [Nat.digitChar (n % 10)]) := by
            rw [pad0, hlen]
        _ = (List.replicate (w' + 1 - (decRepr (n / 10)).length) '0' ++
              decRepr (n / 10)) ++ [Nat.digitChar (n % 10)] := by
            rw [Nat.succ_sub_succ, List.append_assoc]
        _ = padDec (w' + 1) (n / 10) ++ [Nat.digitChar (n % 10)] := by
            rw [← ihh]; rfl
        _ = padDec (w' + 1 + 1) n := (padDec_succ_last (w' + 1) n h).symm

theorem pad0_decRepr_length {n w : Nat} (h : n < 10 ^ (w + 1)) :
    (pad0 (w + 1) (decRepr n)).length = w + 1 := by
  rw [pad0_decRepr_eq_padDec n w h, padDec_length]

/-! ## Lemmas about `lexLt` -/

theorem lexLt_cons_iff (a b : Char) (as bs : List Char) :
    lexLt (a :: as) (b :: bs) = true ↔ (a < b ∨ (a = b ∧ lexLt as bs = true)) := by
  by_cases h1 : a < b
  · simp [lexLt, h1]
  · by_cases h2 : a = b
    · subst h2
      simp [lexLt, h1]
    · simp [lexLt, h1, h2]

theorem lexLt_irrefl : ∀ l : List Char, lexLt l l = false := by
  intro l
  induction l with
  | nil => rfl
  | cons a as ih => simp [lexLt, lt_irrefl, ih]

theorem lexLt_ne {l₁ l₂ : List Char} (h : lexLt l₁ l₂ = true) : l₁ ≠ l₂ := by
  rintro rfl
  rw [lexLt_irrefl] at h
  exact Bool.false_ne_true h

theorem lexLt_append_iff : ∀ a₁ b₁ : List Char, ∀ a₂ b₂ : List Char,
    a₁.length = b₁.length →
    (lexLt (a₁ ++ a₂) (b₁ ++ b₂) = true ↔
      (lexLt a₁ b₁ = true ∨ (a₁ = b₁ ∧ lexLt a₂ b₂ = true))) := by
  intro a₁
  induction a₁ with
  | nil =>
    intro b₁ a₂ b₂ h
    match b₁, h with
    | [], _ => simp [lexLt]
  | cons a as ih =>
    intro b₁ a₂ b₂ h
    match b₁, h with
    | b :: bs, h =>
      have hlen : as.length = bs.length := by simpa using h
      clear h
      simp only [List.cons_append, lexLt_cons_iff, ih bs a₂ b₂ hlen, List.cons.injEq]
      tauto

theorem lexLt_asymm : ∀ l₁ l₂ : List Char, lexLt l₁ l₂ = true → lexLt l₂ l₁ = false := by
  intro l₁
  induction l₁ with
  | nil =>
    intro l₂ h
    match l₂ with
    | [] => rfl
    | _ :: _ => rfl
  | cons a as ih =>
    intro l₂ h
    match l₂ with
    | [] => exact absurd h (by simp [lexLt])
    | b :: bs =>
      rw [lexLt_cons_iff] at h
      rcases h with h | ⟨rfl, h⟩
      · have hba : ¬ b < a := lt_asymm h
        have hne : b ≠ a := fun e => absurd (e ▸ h) (lt_irrefl b)
        simp [lexLt, hba, hne]
      · simp [lexLt, lt_irrefl, ih bs h]

theorem lexLt_trichotomy : ∀ l₁ l₂ : List Char,
    lexLt l₁ l₂ = true ∨ l₁ = l₂ ∨ lexLt l₂ l₁ = true := by
  intro l₁
  induction l₁ with
  | nil =>
    intro l₂
    match l₂ with
    | [] => exact Or.inr (Or.inl rfl)
    | _ :: _ => exact Or.inl rfl
  | cons a as ih =>
    intro l₂
    match l₂ with
    | [] => exact Or.inr (Or.inr rfl)
    | b :: bs =>
      rcases lt_trichotomy a b with h | rfl | h
      · exact Or.inl ((lexLt_cons_iff a b as bs).mpr (Or.inl h))
      · rcases ih bs with h | rfl | h
        · exact Or.inl ((lexLt_cons_iff a a as bs).mpr (Or.inr ⟨rfl, h⟩))
        · exact Or.inr (Or.inl rfl)
        · exact Or.inr (Or.inr ((lexLt_cons_iff a a bs as).mpr (Or.inr ⟨rfl, h⟩)))
      · exact Or.inr (Or.inr ((lexLt_cons_iff b a bs as).mpr (Or.inl h)))

theorem lexLt_trans : ∀ l₁ l₂ l₃ : List Char,
    lexLt l₁ l₂ = true → lexLt l₂ l₃ = true → lexLt l₁ l₃ = true := by
  intro l₁
  induction l₁ with
  | nil =>
    intro l₂ l₃ h₁ h₂
    match l₂, l₃ with
    | _ :: _, [] => exact absurd h₂ (by simp [lexLt])
    | _ :: _, _ :: _ => rfl
  | cons a as ih =>
    intro l₂ l₃ h₁ h₂
    match l₂, l₃ with
    | [], _ => exact absurd h₁ (by simp [lexLt])
    | _ :: _, [] => exact absurd h₂ (by simp [lexLt])
    | b :: bs, c :: cs =>
      rw [lexLt_cons_iff] at h₁ h₂ ⊢
      rcases h₁ with h₁ | ⟨rfl, h₁⟩
      · rcases h₂ with h₂ | ⟨rfl, h₂⟩
        · exact Or.inl (lt_trans h₁ h₂)
        · exact Or.inl h₁
      · rcases h₂ with h₂ | ⟨rfl, h₂⟩
        · exact Or.inl h₂
        · exact Or.inr ⟨rfl, ih bs cs h₁ h₂⟩

theorem digitChar_lt_iff : ∀ a : Nat, a < 10 → ∀ b : Nat, b < 10 →
    (Nat.digitChar a < Nat.digitChar b ↔ a < b) := by decide

theorem digitChar_inj : ∀ a : Nat, a < 10 → ∀ b : Nat, b < 10 →
    (Nat.digitChar a = Nat.digitChar b ↔ a = b) := by decide

theorem lt_of_div_lt_div {d : Nat} (hd : 0 < d) {n m : Nat}
    (hq : n / d < m / d) : n < m :=
  calc n < d * (n / d) + d := by
        have h1 := Nat.mod_lt n hd
        have h2 := Nat.div_add_mod n d
        omega
    _ = d * (n / d + 1) := by ring
    _ ≤ d * (m / d) := Nat.mul_le_mul_left d (Nat.succ_le_of_lt hq)
    _ ≤ d * (m / d) + m % d := Nat.le_add_right _ _
    _ = m := Nat.div_add_mod m d

theorem lt_iff_div_mod {d : Nat} (hd : 0 < d) (n m : Nat) :
    n < m ↔ (n / d < m / d ∨ (n / d = m / d ∧ n % d < m % d)) := by
  constructor
  · intro h
    rcases lt_trichotomy (n / d) (m / d) with hq | hq | hq
    · exact Or.inl hq
    · refine Or.inr ⟨hq, ?_⟩
      by_contra hr
      push_neg at hr
      have hle : m ≤ n :=
        calc m = d * (m / d) + m % d := (Nat.div_add_mod m d).symm
          _ ≤ d * (n / d) + n % d := by rw [hq]; exact Nat.add_le_add_left hr _
          _ = n := Nat.div_add_mod n d
      omega
    · exact absurd (lt_of_div_lt_div hd hq) (by omega)
  · rintro (hq | ⟨hq, hr⟩)
    · exact lt_of_div_lt_div hd hq
    · calc n = d * (n / d) + n % d := (Nat.div_add_mod n d).symm
        _ < d * (n / d) + m % d := Nat.add_lt_add_left hr _
        _ = d * (m / d) + m % d := by rw [hq]
        _ = m := Nat.div_add_mod m d

theorem padDec_lt_iff : ∀ w n m, n < 10 ^ w → m < 10 ^ w →
    (lexLt (padDec w n) (padDec w m) = true ↔ n < m) := by
  intro w
  induction w with
  | zero =>
    intro n m hn hm
    interval_cases n
    interval_cases m
    simp [padDec, lexLt]
  | succ w ih =>
    intro n m hn hm
    have hp : (0 : Nat) < 10 ^ w := by positivity
    have hq₁ : n / 10 ^ w < 10 := by
      apply Nat.div_lt_of_lt_mul
      calc n < 10 ^ (w + 1) := hn
        _ = 10 ^ w * 10 := by ring
    have hq₂ : m / 10 ^ w < 10 := by
      apply Nat.div_lt_of_lt_mul
      calc m < 10 ^ (w + 1) := hm
        _ = 10 ^ w * 10 := by ring
    have hr₁ : n % 10 ^ w < 10 ^ w := Nat.mod_lt n hp
    have hr₂ : m % 10 ^ w < 10 ^ w := Nat.mod_lt m hp
    calc lexLt (padDec (w + 1) n) (padDec (w + 1) m) = true
        ↔ (Nat.digitChar (n / 10 ^ w) < Nat.digitChar (m / 10 ^ w) ∨
            (Nat.digitChar (n / 10 ^ w) = Nat.digitChar (m / 10 ^ w) ∧
              lexLt (padDec w (n % 10 ^ w)) (padDec w (m % 10 ^ w)) = true)) := by
          exact lexLt_cons_iff _ _ _ _
      _ ↔ (n / 10 ^ w < m / 10 ^ w ∨
            (n / 10 ^ w = m / 10 ^ w ∧ n % 10 ^ w < m % 10 ^ w)) := by
          rw [digitChar_lt_iff _ hq₁ _ hq₂, digitChar_inj _ hq₁ _ hq₂,
            ih _ _ hr₁ hr₂]
      _ ↔ n < m := (lt_iff_div_mod hp n m).symm

/-- The padded decimal rendering is injective below `10 ^ w`. -/
theorem padDec_inj {w n m : Nat} (hn : n < 10 ^ w) (hm : m < 10 ^ w)
    (h : padDec w n = padDec w m) : n = m := by
  rcases lt_trichotomy n m with hlt | heq | hlt
  · exact absurd h (lexLt_ne ((padDec_lt_iff w n m hn hm).mpr hlt))
  · exact heq
  · exact absurd h.symm (lexLt_ne ((padDec_lt_iff w m n hm hn).mpr hlt))

/-! ## The key-ordering theorem for `buildKey` -/

theorem intRepr_single_digit {p : Int} (h1 : 1 ≤ p) (h5 : p ≤ 5) :
    intRepr p = [Nat.digitChar p.natAbs] := by
  have hneg : ¬ p < 0 := by omega
  rw [intRepr, if_neg hneg, decRepr_lt10 (by omega)]

theorem padInt_nonneg {t : Int} (h0 : 0 ≤ t) :
    padInt 20 t = pad0 20 (decRepr t.natAbs) := by
  rw [padInt, if_neg (by omega)]

theorem padInt_lt_iff {t₁ t₂ : Int} (h₁ : 0 ≤ t₁) (h₁' : t₁ < 10 ^ 20)
    (h₂ : 0 ≤ t₂) (h₂' : t₂ < 10 ^ 20) :
    (lexLt (padInt 20 t₁) (padInt 20 t₂) = true ↔ t₁ < t₂) := by
  have hn₁ : t₁.natAbs < 10 ^ 20 := by omega
  have hn₂ : t₂.natAbs < 10 ^ 20 := by omega
  rw [padInt_nonneg h₁, padInt_nonneg h₂,
    pad0_decRepr_eq_padDec t₁.natAbs 19 hn₁, pad0_decRepr_eq_padDec t₂.natAbs 19 hn₂,
    padDec_lt_iff 20 _ _ hn₁ hn₂]
  omega

theorem padInt_inj_iff {t₁ t₂ : Int} (h₁ : 0 ≤ t₁) (h₁' : t₁ < 10 ^ 20)
    (h₂ : 0 ≤ t₂) (h₂' : t₂ < 10 ^ 20) :
    (padInt 20 t₁ = padInt 20 t₂ ↔ t₁ = t₂) := by
  constructor
  · intro h
    have hn₁ : t₁.natAbs < 10 ^ 20 := by omega
    have hn₂ : t₂.natAbs < 10 ^ 20 := by omega
    rw [padInt_nonneg h₁, padInt_nonneg h₂,
      pad0_decRepr_eq_padDec t₁.natAbs 19 hn₁,
      pad0_decRepr_eq_padDec t₂.natAbs 19 hn₂] at h
    have := padDec_inj hn₁ hn₂ h
    omega
  · rintro rfl
    rfl

theorem padInt_length {t : Int} (h0 : 0 ≤ t) (h : t < 10 ^ 20) :
    (padInt 20 t).length = 20 := by
  rw [padInt_nonneg h0]
  exact pad0_decRepr_length (by omega)

/-- Decomposition of the comparison of two keys of the shape
`digit :: '_' :: (pad ++ '_' :: id)` with equal pad widths. -/
theorem lexLt_key_shape (x y : Char) (p₁ p₂ i₁ i₂ : List Char)
    (hlen : p₁.length = p₂.length) :
    (lexLt (x :: '_' :: (p₁ ++ '_' :: i₁)) (y :: '_' :: (p₂ ++ '_' :: i₂)) = true ↔
      (x < y ∨ (x = y ∧ (lexLt p₁ p₂ = true ∨ (p₁ = p₂ ∧ lexLt i₁ i₂ = true))))) := by
  rw [lexLt_cons_iff, lexLt_cons_iff, lexLt_append_iff p₁ p₂ _ _ hlen, lexLt_cons_iff]
  have hsep : ¬ ('_' : Char) < '_' := lt_irrefl _
  have hrfl : ('_' : Char) = '_' := rfl
  tauto

/-- Byte-wise ordering of the keys produced by `buildKey` coincides with the
numeric ordering of the logical tuple `(priority, enqueued_at, id)`, for
items in the normalized ranges. -/
theorem buildKey_lt_iff (a b : Item) (ha : InKeyRange a) (hb : InKeyRange b) :
    (lexLt (buildKey a) (buildKey b) = true ↔ tupleLt a b) := by
  obtain ⟨ha1, ha5, ha0, haT⟩ := ha
  obtain ⟨hb1, hb5, hb0, hbT⟩ := hb
  have hda : a.priority.natAbs < 10 := by omega
  have hdb : b.priority.natAbs < 10 := by omega
  have hlen : (padInt 20 a.timestamp).length = (padInt 20 b.timestamp).length := by
    rw [padInt_length ha0 haT, padInt_length hb0 hbT]
  rw [buildKey, buildKey, intRepr_single_digit ha1 ha5, intRepr_single_digit hb1 hb5]
  simp only [List.singleton_append]
  rw [lexLt_key_shape _ _ _ _ _ _ hlen]
  rw [digitChar_lt_iff _ hda _ hdb, digitChar_inj _ hda _ hdb,
    padInt_lt_iff ha0 haT hb0 hbT, padInt_inj_iff ha0 haT hb0 hbT]
  unfold tupleLt
  constructor
  · rintro (h | ⟨hp, (h | ⟨ht, h⟩)⟩)
    · exact Or.inl (by omega)
    · exact Or.inr ⟨by omega, Or.inl h⟩
    · exact Or.inr ⟨by omega, Or.inr ⟨ht, h⟩⟩
  · rintro (h | ⟨hp, (h | ⟨ht, h⟩)⟩)
    · exact Or.inl (by omega)
    · exact Or.inr ⟨by omega, Or.inl h⟩
    · exact Or.inr ⟨by omega, Or.inr ⟨ht, h⟩⟩

/-! ## Store invariants: ascending keys, well-formed entries -/

theorem putEntry_mem_self : ∀ s : Store, ∀ k v, (k, v) ∈ putEntry s k v := by
  intro s k v
  induction s with
  | nil => exact List.mem_singleton.mpr rfl
  | cons e rest ih =>
    obtain ⟨k', v'⟩ := e
    rw [putEntry]
    split_ifs with h1 h2
    · exact List.mem_cons_self _ _
    · exact List.mem_cons_self _ _
    · exact List.mem_cons_of_mem _ ih

theorem putEntry_mem : ∀ s : Store, ∀ k v e, e ∈ putEntry s k v →
    e = (k, v) ∨ e ∈ s := by
  intro s k v
  induction s with
  | nil =>
    intro e he
    exact Or.inl (List.mem_singleton.mp he)
  | cons e₀ rest ih =>
    obtain ⟨k', v'⟩ := e₀
    intro e he
    rw [putEntry] at he
    split_ifs at he with h1 h2
    · rcases List.mem_cons.mp he with rfl | he
      · exact Or.inl rfl
      · exact Or.inr he
    · rcases List.mem_cons.mp he with rfl | he
      · exact Or.inl rfl
      · exact Or.inr (List.mem_cons_of_mem _ he)
    · rcases List.mem_cons.mp he with rfl | he
      · exact Or.inr (List.mem_cons_self _ _)
      · rcases ih e he with h | h
        · exact Or.inl h
        · exact Or.inr (List.mem_cons_of_mem _ h)

theorem putEntry_ordered : ∀ s : Store, ∀ k v, storeOrdered s →
    storeOrdered (putEntry s k v) := by
  intro s k v
  induction s with
  | nil => intro _; exact List.pairwise_singleton _ _
  | cons e₀ rest ih =>
    obtain ⟨k', v'⟩ := e₀
    intro hs
    obtain ⟨hhead, htail⟩ := List.pairwise_cons.mp hs
    rw [putEntry]
    split_ifs with h1 h2
    · refine List.pairwise_cons.mpr ⟨?_, hs⟩
      intro e he
      rcases List.mem_cons.mp he with rfl | he
      · exact h1
      · exact lexLt_trans _ _ _ h1 (hhead e he)
    · subst h2
      exact List.pairwise_cons.mpr ⟨hhead, htail⟩
    · have h3 : lexLt k' k = true := by
        rcases lexLt_trichotomy k k' with h | h | h
        · exact absurd h h1
        · exact absurd h h2
        · exact h
      refine List.pairwise_cons.mpr ⟨?_, ih htail⟩
      intro e he
      rcases putEntry_mem rest k v e he with rfl | he
      · exact h3
      · exact hhead e he

theorem delKey_sublist (s : Store) (k : List Char) : (delKey s k).Sublist s :=
  List.filter_sublist s

theorem delFirstByID_sublist : ∀ s : Store, ∀ i, (delFirstByID s i).Sublist s := by
  intro s i
  induction s with
  | nil => exact List.Sublist.refl []
  | cons e rest ih =>
    by_cases h : e.2.id = i
    · simp only [delFirstByID, h, if_pos]
      exact List.sublist_cons_self e rest
    · simp only [delFirstByID, h, if_neg, not_false_iff]
      exact List.Sublist.cons₂ e ih

theorem remove_sublist (s : Store) (item : Item) : (remove s item).Sublist s := by
  rw [remove]
  match item.bucketKey with
  | none =>
      rw [deleteByID]
      by_cases h : item.id = ""
      · simp [h]
      · simp only [h, if_neg, not_false_iff]
        exact delFirstByID_sublist s item.id
  | some k => exact delKey_sublist s k

/-! ## Normalization facts -/

theorem normalize_spec (f : String) (now : Int) (i : Item) :
    i.normalize f now =
      { i with
        id := if i.id = "" then f else i.id
        priority := if i.priority ≤ 0 ∨ 5 < i.priority then 3 else i.priority
        timestamp := if i.timestamp = 0 then now else i.timestamp } := by
  unfold Item.normalize
  by_cases h1 : i.id = "" <;> by_cases h2 : i.priority ≤ 0 ∨ 5 < i.priority <;>
    by_cases h3 : i.timestamp = 0 <;> simp [h1, h2, h3]

theorem normalize_inKeyRange (f : String) (now : Int) (i : Item)
    (hnow : TimeOK now) (ht : i.timestamp = 0 ∨ TimeOK i.timestamp) :
    InKeyRange (i.normalize f now) := by
  rw [normalize_spec]
  obtain ⟨h1, h2⟩ := hnow
  unfold InKeyRange TimeOK at *
  dsimp only
  split_ifs <;> rcases ht with ht | ⟨ht1, ht2⟩ <;> omega

theorem enqueue_WF (f : String) (now : Int) (s : Store) (itm : Item)
    (hs : storeWF s) (hnow : TimeOK now)
    (ht : itm.timestamp = 0 ∨ TimeOK itm.timestamp) :
    storeWF (enqueue f now s itm) := by
  obtain ⟨hwf, hord⟩ := hs
  constructor
  · intro e he
    rcases putEntry_mem _ _ _ e he with rfl | he
    · exact ⟨rfl, normalize_inKeyRange f now itm hnow ht, rfl⟩
    · exact hwf e he
  · exact putEntry_ordered _ _ _ hord

theorem sublist_WF {s s' : Store} (hsub : s'.Sublist s) (hs : storeWF s) :
    storeWF s' :=
  ⟨fun e he => hs.1 e (hsub.subset he), List.Pairwise.sublist hsub hs.2⟩

theorem remove_WF (s : Store) (itm : Item) (hs : storeWF s) :
    storeWF (remove s itm) :=
  sublist_WF (remove_sublist s itm) hs

theorem getBatch_all (limit : Int) (s : Store) (h : s.length ≤ batchLimit limit) :
    getBatch limit s = s.map (fun e => { e.2 with bucketKey := some e.1 }) := by
  rw [getBatch, List.take_of_length_le h]

/-- Batches come out sorted by the logical tuple. -/
theorem getBatch_sorted (limit : Int) (s : Store) (hs : storeWF s) :
    List.Pairwise tupleLt (getBatch limit s) := by
  obtain ⟨hwf, hord⟩ := hs
  rw [getBatch]
  have htake : List.Pairwise (fun e₁ e₂ => lexLt e₁.1 e₂.1 = true)
      (s.take (batchLimit limit)) :=
    List.Pairwise.sublist (List.take_sublist _ _) hord
  have htup : List.Pairwise (fun e₁ e₂ : List Char × Item => tupleLt e₁.2 e₂.2)
      (s.take (batchLimit limit)) := by
    refine List.Pairwise.imp_of_mem ?_ htake
    intro e₁ e₂ h₁ h₂ hlt
    have hm₁ := hwf e₁ (List.take_subset _ _ h₁)
    have hm₂ := hwf e₂ (List.take_subset _ _ h₂)
    obtain ⟨hk₁, hr₁, -⟩ := hm₁
    obtain ⟨hk₂, hr₂, -⟩ := hm₂
    rw [hk₁, hk₂] at hlt
    exact (buildKey_lt_iff e₁.2 e₂.2 hr₁ hr₂).mp hlt
  rw [List.pairwise_map]
  exact htup

theorem containsID_iff (s : Store) (i : String) :
    containsID s i = true ↔ ∃ e ∈ s, e.2.id = i := by
  rw [containsID, List.any_eq_true]
  constructor
  · rintro ⟨e, he, hb⟩
    exact ⟨e, he, by simpa using hb⟩
  · rintro ⟨e, he, hb⟩
    exact ⟨e, he, by simpa using hb⟩

theorem enqueue_contains (f : String) (now : Int) (s : Store) (itm : Item) :
    containsID (enqueue f now s itm) (itm.normalize f now).id = true := by
  rw [containsID_iff]
  exact ⟨(buildKey (itm.normalize f now), (itm.normalize f now).stored),
    putEntry_mem_self _ _ _, rfl⟩

theorem normalize_id_of_ne (f : String) (now : Int) (itm : Item)
    (h : itm.id ≠ "") : (itm.normalize f now).id = itm.id := by
  rw [normalize_spec]
  simp [h]

theorem requeue_contains (f : String) (now : Int) (s : Store) (itm : Item)
    (h : itm.id ≠ "") : containsID (requeue f now s itm) itm.id = true := by
  rw [requeue, enqueue]
  rw [containsID_iff]
  refine ⟨(buildKey (({ itm with bucketKey := none, timestamp := now } : Item).normalize
      (f) (now)), (({ itm with bucketKey := none, timestamp := now } : Item).normalize
      (f) (now)).stored), putEntry_mem_self _ _ _, ?_⟩
  show (({ itm with bucketKey := none, timestamp := now } : Item).normalize f now).id = itm.id
  exact normalize_id_of_ne f now _ h

/-! ## Drain-loop lemmas -/

/-- When the primary store is down, every apply attempt fails. -/
theorem processItem_down (f : String) (now : Int) (r : Repos) (itm : Item)
    (h : r.up = false) : ∃ e, processItem f now r itm = Except.error e := by
  by_cases hp : itm.entity = entityProfile
  · cases hdu : decodeUser itm.data with
    | none => exact ⟨.decodeFailed, by simp [processItem, hp, hdu]⟩
    | some u =>
        exact ⟨.repoErr .unavailable, by simp [processItem, hp, hdu, upsertUser, h]⟩
  · by_cases ht : itm.entity = entityTask
    · cases hdt : decodeTask itm.data with
      | none => exact ⟨.decodeFailed,
          by simp [processItem, hp, ht, hdt, entityProfile, entityTask]⟩
      | some t =>
        by_cases hc : itm.operation = operationCreate
        · exact ⟨.repoErr .unavailable,
            by simp [processItem, hp, ht, hdt, hc, createTask, h,
              entityProfile, entityTask]⟩
        · by_cases hu : itm.operation = operationUpdate
          · exact ⟨.repoErr .unavailable,
              by simp [processItem, hp, ht, hdt, hc, hu, updateTask, h,
                entityProfile, entityTask, operationCreate, operationUpdate]⟩
          · by_cases hd : itm.operation = operationDelete
            · exact ⟨.repoErr .unavailable,
                by simp [processItem, hp, ht, hdt, hc, hu, hd, deleteTask, h,
                  entityProfile, entityTask, operationCreate, operationUpdate,
                  operationDelete]⟩
            · exact ⟨.unsupportedOperation itm.operation,
                by simp [processItem, hp, ht, hdt, hc, hu, hd,
                  entityProfile, entityTask]⟩
    · exact ⟨.unsupportedEntity itm.entity, by simp [processItem, hp, ht]⟩

/-- Per-item drain step, failure branches: the retry counter of the
requeued/dropped item is the item's counter plus exactly one; the item is
dropped precisely when the incremented counter reaches `maxRetries`, and
otherwise removed and requeued with a refreshed timestamp. -/
theorem drainStep_fail_spec (maxR : Int) (f : String) (now : Int)
    (r : Repos) (s : Store) (itm : Item) (e : ApplyErr)
    (hpi : processItem f now r itm = .error e) :
    (maxR ≤ (itm.retries : Int) + 1 →
      drainStep maxR f now true true r s itm =
        (r, remove s { itm with retries := itm.retries + 1 },
          .droppedMaxRetries itm.id true)) ∧
    ((itm.retries : Int) + 1 < maxR →
      drainStep maxR f now true true r s itm =
        (r, requeue f now (remove s { itm with retries := itm.retries + 1 })
              { itm with retries := itm.retries + 1 },
          .requeued itm.id true true)) := by
  constructor
  · intro h
    rw [drainStep, hpi]
    simp [h]
  · intro h
    have hc : ¬ maxR ≤ ((itm.retries : Int) + 1) := by omega
    rw [drainStep, hpi]
    simp [hc]

/-- Per-item drain step: unless the step ends in a terminal transition
(successful apply or retry exhaustion), the item is still in the store
afterwards — provided `Requeue` does not fail when `Remove` succeeded. -/
theorem drainStep_no_silent_loss (maxR : Int) (f : String) (now : Int)
    (remOk reqOk : Bool) (r : Repos) (s : Store) (itm : Item)
    (hid : itm.id ≠ "") (hin : containsID s itm.id = true)
    (hreq : remOk = true → reqOk = true) :
    (drainStep maxR f now remOk reqOk r s itm).2.2 = .applied itm.id remOk ∨
    (drainStep maxR f now remOk reqOk r s itm).2.2 = .droppedMaxRetries itm.id remOk ∨
    containsID (drainStep maxR f now remOk reqOk r s itm).2.1 itm.id = true := by
  rw [drainStep]
  cases hpi : processItem f now r itm with
  | ok r' => exact Or.inl rfl
  | error e =>
    by_cases hmax : maxR ≤ ((itm.retries : Int) + 1)
    · refine Or.inr (Or.inl ?_)
      simp [hmax]
    · refine Or.inr (Or.inr ?_)
      cases remOk with
      | true =>
        have hq := hreq rfl
        subst hq
        have hres := requeue_contains f now
          (remove s { itm with retries := itm.retries + 1 })
          { itm with retries := itm.retries + 1 } hid
        simpa [hmax] using hres
      | false =>
        cases reqOk with
        | true =>
          have hres := requeue_contains f now s
            { itm with retries := itm.retries + 1 } hid
          simpa [hmax] using hres
        | false =>
          simpa [hmax] using hin

theorem one_le_batchLimit {limit : Int} (h : 0 < limit) : 1 ≤ batchLimit limit := by
  rw [batchLimit, if_neg (by omega)]
  omega

theorem drainStep_ne_skip (maxR : Int) (f : String) (now : Int)
    (remOk reqOk : Bool) (r : Repos) (s : Store) (itm : Item) :
    (drainStep maxR f now remOk reqOk r s itm).2.2 ≠ .skippedOffline := by
  rw [drainStep]
  cases hpi : processItem f now r itm with
  | ok r' => simp
  | error e =>
    by_cases hmax : maxR ≤ ((itm.retries : Int) + 1)
    · simp [hmax]
    · simp [hmax]

theorem drainItems_no_skip (maxR : Int) (env : DrainEnv) :
    ∀ items : List Item, ∀ idx r s,
      DrainEvent.skippedOffline ∉ (drainItems maxR env idx r s items).2.2 := by
  intro items
  induction items with
  | nil =>
    intro idx r s
    simp [drainItems]
  | cons item rest ih =>
    intro idx r s
    rw [drainItems]
    intro hmem
    simp only [List.mem_cons] at hmem
    rcases hmem with hmem | hmem
    · exact drainStep_ne_skip _ _ _ _ _ _ _ _ hmem.symm
    · exact ih _ _ _ hmem

/-- One online drain tick over a store holding a single record whose apply
fails (primary store down): the record is dropped when the bumped counter
reaches `maxRetries` and otherwise requeued under a refreshed key with the
counter bumped by exactly one. -/
theorem drainTick_single_fail (cfg : ProcessorConfig) (env : DrainEnv) (r : Repos)
    (itm : Item)
    (hup : r.up = false) (hbs : 0 < cfg.batchSize)
    (hid : itm.id ≠ "")
    (hp1 : 1 ≤ itm.priority) (hp5 : itm.priority ≤ 5)
    (hnow : TimeOK (env.nowAt 0))
    (hrem : env.remOk 0 = true) (hreq : env.reqOk 0 = true) :
    drainTick (some true) cfg env r [(buildKey itm, itm)] =
      if cfg.maxRetries ≤ (itm.retries : Int) + 1 then
        (r, [], [.droppedMaxRetries itm.id true])
      else
        (r, [(buildKey (bumped itm (env.nowAt 0)), bumped itm (env.nowAt 0))],
          [.requeued itm.id true true]) := by
  obtain ⟨hn1, hn2⟩ := hnow
  have hbatch : getBatch cfg.batchSize [(buildKey itm, itm)] =
      [{ itm with bucketKey := some (buildKey itm) }] := by
    rw [getBatch_all _ _ (by simpa using one_le_batchLimit hbs)]
    simp
  have hdown := processItem_down (env.freshID 0) (env.nowAt 0) r
    { itm with bucketKey := some (buildKey itm) } hup
  obtain ⟨e, hpe⟩ := hdown
  have hspec := drainStep_fail_spec cfg.maxRetries (env.freshID 0) (env.nowAt 0)
    r [(buildKey itm, itm)] { itm with bucketKey := some (buildKey itm) } e hpe
  by_cases hmax : cfg.maxRetries ≤ (itm.retries : Int) + 1
  · have hstep := hspec.1 (by simpa using hmax)
    rw [if_pos hmax]
    have hrm : remove [(buildKey itm, itm)]
        { itm with bucketKey := some (buildKey itm), retries := itm.retries + 1 } =
        ([] : Store) := by
      simp [remove, delKey]
    rw [drainTick, hbatch]
    · simp only [drainItems]
      rw [hrem, hreq, hstep]
      simp [hrm]
    · simp
  · have hstep := hspec.2 (by simpa using (not_le.mp hmax))
    rw [if_neg hmax]
    have hrm : remove [(buildKey itm, itm)]
        { itm with bucketKey := some (buildKey itm), retries := itm.retries + 1 } =
        ([] : Store) := by
      simp [remove, delKey]
    have hrq : requeue (env.freshID 0) (env.nowAt 0) ([] : Store)
        { itm with bucketKey := some (buildKey itm), retries := itm.retries + 1 } =
        [(buildKey (bumped itm (env.nowAt 0)), bumped itm (env.nowAt 0))] := by
      rw [requeue, enqueue, normalize_spec]
      have hpr : ¬ (itm.priority ≤ 0 ∨ 5 < itm.priority) := by omega
      have hnz : ¬ (env.nowAt 0 = 0) := by omega
      simp [hid, hpr, hnz, putEntry, Item.stored, bumped]
    rw [drainTick, hbatch]
    · simp only [drainItems]
      rw [hrem, hreq, hstep]
      simp [hrm, hrq]
    · simp

/-! ## Association-list and repository lemmas -/

theorem getAssoc_setAssoc {α : Type} : ∀ l : List (String × α), ∀ k v,
    getAssoc (setAssoc l k v) k = some v := by
  intro l k v
  induction l with
  | nil => simp [setAssoc, getAssoc]
  | cons e rest ih =>
    obtain ⟨k', v'⟩ := e
    by_cases h : k' = k
    · simp [setAssoc, getAssoc, h]
    · simp [setAssoc, getAssoc, h, ih]

theorem setAssoc_setAssoc {α : Type} : ∀ l : List (String × α), ∀ k v w,
    setAssoc (setAssoc l k v) k w = setAssoc l k w := by
  intro l k v w
  induction l with
  | nil => simp [setAssoc]
  | cons e rest ih =>
    obtain ⟨k', v'⟩ := e
    by_cases h : k' = k
    · simp [setAssoc, h]
    · simp [setAssoc, h, ih]

theorem getAssoc_delAssoc {α : Type} : ∀ l : List (String × α), ∀ k,
    getAssoc (delAssoc l k) k = none := by
  intro l k
  induction l with
  | nil => simp [delAssoc, getAssoc]
  | cons e rest ih
 =>
    obtain ⟨k', v'⟩ := e
    by_cases h : k' = k
    · simpa [delAssoc, getAssoc, h] using ih
    · simpa [delAssoc, getAssoc, h] using ih

/-- A second `Upsert` of the same user at the same instant is a no-op on
state and succeeds again. -/
theorem upsertUser_idem (r : Repos) (u : User) (now : Int) (r' : Repos)
    (h : upsertUser r u now = .ok r') :
    upsertUser r' u now = .ok r' := by
  by_cases hup : r.up
  · rw [upsertUser, hup] at h
    simp only [Bool.not_true, Bool.false_eq_true, if_false, if_neg,
      not_false_iff] at h
    cases hget : getAssoc r.users u.id with
    | none =>
      rw [hget] at h
      simp only [Except.ok.injEq] at h
      subst h
      rw [upsertUser]
      simp only [hup, Bool.not_true, Bool.false_eq_true, if_false, if_neg,
        not_false_iff, getAssoc_setAssoc]
      rw [setAssoc_setAssoc]
    | some old =>
      rw [hget] at h
      simp only [Except.ok.injEq] at h
      subst h
      rw [upsertUser]
      simp only [hup, Bool.not_true, Bool.false_eq_true, if_false, if_neg,
        not_false_iff, getAssoc_setAssoc]
      rw [setAssoc_setAssoc]
  · rw [upsertUser] at h
    simp [Bool.of_not_eq_true hup] at h

/-- A second `Update` of the same task at the same instant is a no-op on
state and succeeds again. -/
theorem updateTask_idem (r : Repos) (t : Task) (now : Int) (r' : Repos)
    (h : updateTask r t now = .ok r') :
    updateTask r' t now = .ok r' := by
  by_cases hup : r.up
  · rw [updateTask, hup] at h
    simp only [Bool.not_true, Bool.false_eq_true, if_false, if_neg,
      not_false_iff] at h
    cases hget : getAssoc r.tasks t.id with
    | none =>
      rw [hget] at h
      exact absurd h (by simp)
    | some old =>
      rw [hget] at h
      simp only [Except.ok.injEq] at h
      subst h
      rw [updateTask]
      simp only [hup, Bool.not_true, Bool.false_eq_true, if_false, if_neg,
        not_false_iff, getAssoc_setAssoc]
      rw [setAssoc_setAssoc]
  · rw [updateTask] at h
    simp [Bool.of_not_eq_true hup] at h

/-- A second `Create` of the task returned by a successful `Create` hits the
primary-key constraint: plain `INSERT`, not upsert. -/
theorem createTask_dup (r : Repos) (t : Task) (f : String) (now : Int)
    (r' : Repos) (t' : Task) (hid : t.id ≠ "")
    (h : createTask r t f now = .ok (r', t')) (f' : String) (now' : Int) :
    createTask r' t' f' now' = .error .duplicateKey := by
  by_cases hup : r.up
  · rw [createTask] at h
    simp only [hid, if_false, if_neg, not_false_iff, hup, Bool.not_true,
      Bool.false_eq_true] at h
    cases hget : getAssoc r.tasks t.id with
    | some old =>
      rw [hget] at h
      exact absurd h (by simp)
    | none =>
      rw [hget] at h
      simp only [Except.ok.injEq, Prod.mk.injEq] at h
      obtain ⟨hr, ht⟩ := h
      subst hr
      subst ht
      rw [createTask]
      simp [hid, hup, getAssoc_setAssoc]
  · rw [createTask] at h
    simp [hid, Bool.of_not_eq_true hup] at h

/-- `Delete` of an id absent from the row store fails with
`ErrTaskNotFound`. -/
theorem deleteTask_missing (r : Repos) (i : String) (hup : r.up = true)
    (h : getAssoc r.tasks i = none) :
    deleteTask r i = .error .taskNotFound := by
  rw [deleteTask]
  simp [hup, h]

/-- A second `Delete` of an id just deleted fails with `ErrTaskNotFound`. -/
theorem deleteTask_twice (r : Repos) (i : String) (r' : Repos)
    (h : deleteTask r i = .ok r') :
    deleteTask r' i = .error .taskNotFound := by
  by_cases hup : r.up
  · rw [deleteTask, hup] at h
    simp only [Bool.not_true, Bool.false_eq_true, if_false, if_neg,
      not_false_iff] at h
    cases hget : getAssoc r.tasks i with
    | none =>
      rw [hget] at h
      exact absurd h (by simp)
    | some old =>
      rw [hget] at h
      simp only [Except.ok.injEq] at h
      subst h
      exact deleteTask_missing _ _ (by simp [hup]) (getAssoc_delAssoc _ _)
  · rw [deleteTask] at h
    simp [Bool.of_not_eq_true hup] at h

/-! ## `processItem` dispatch lemmas -/

/-- A task payload that fails to deserialize is rejected before any
repository call. -/
theorem processItem_poison_task (f : String) (now : Int) (r : Repos)
    (itm : Item) (he : itm.entity = entityTask) (hd : decodeTask itm.data = none) :
    processItem f now r itm = .error .decodeFailed := by
  simp [processItem, he, hd, entityProfile, entityTask]

/-- A profile payload that fails to deserialize is rejected before any
repository call. -/
theorem processItem_poison_profile (f : String) (now : Int) (r : Repos)
    (itm : Item) (he : itm.entity = entityProfile) (hd : decodeUser itm.data = none) :
    processItem f now r itm = .error .decodeFailed := by
  simp [processItem, he, hd]

/-- Applying a buffered `(task, delete)` record for a missing row surfaces
the repository's not-found error: a failed apply, not a success. -/
theorem processItem_delete_missing (f : String) (now : Int) (r : Repos)
    (itm : Item) (t : Task)
    (he : itm.entity = entityTask) (ho : itm.operation = operationDelete)
    (hd : itm.data = .taskPayload t) (hup : r.up = true)
    (hmiss : getAssoc r.tasks t.id = none) :
    processItem f now r itm = .error (.repoErr .taskNotFound) := by
  simp [processItem, he, ho, hd, decodeTask, deleteTask, hup, hmiss,
    entityProfile, entityTask, operationCreate, operationUpdate, operationDelete]

/-! ## Iterated drain ticks -/

/-- With the default configuration (`max_retries = 3`) and a primary store
that stays down, a single buffered record is attempted on each of three
consecutive ticks — requeued twice with its counter bumped — and dropped on
the third; afterwards the buffer is empty. -/
theorem three_ticks_drop (env : DrainEnv) (r : Repos) (itm : Item)
    (hup : r.up = false) (hid : itm.id ≠ "")
    (hp1 : 1 ≤ itm.priority) (hp5 : itm.priority ≤ 5)
    (hr0 : itm.retries = 0)
    (hnow : TimeOK (env.nowAt 0))
    (hrem : env.remOk 0 = true) (hreq : env.reqOk 0 = true) :
    runTicks (normalizeConfig { interval := 0, batchSize := 0, maxRetries := 0 })
        env 3 (r, [(buildKey itm, itm)], []) =
      (r, [], [.requeued itm.id true true, .requeued itm.id true true,
        .droppedMaxRetries itm.id true]) := by
  have hbs : 0 < (normalizeConfig
      { interval := 0, batchSize := 0, maxRetries := 0 }).batchSize := by
    simp [normalizeConfig]
  have hmr : (normalizeConfig
      { interval := 0, batchSize := 0, maxRetries := 0 }).maxRetries = 3 := by
    simp [normalizeConfig]
  set cfg := normalizeConfig { interval := 0, batchSize := 0, maxRetries := 0 }
    with hcfg
  set itm₁ := bumped itm (env.nowAt 0) with hitm₁
  set itm₂ := bumped itm₁ (env.nowAt 0) with hitm₂
  have hid₁ : itm₁.id = itm.id := by simp [hitm₁, bumped]
  have hid₂ : itm₂.id = itm.id := by simp [hitm₂, hitm₁, bumped]
  have hr₁ : itm₁.retries = 1 := by simp [hitm₁, bumped, hr0]
  have hr₂ : itm₂.retries = 2 := by simp [hitm₂, bumped, hr₁]
  have h1 := drainTick_single_fail cfg env r itm hup hbs hid hp1 hp5 hnow hrem hreq
  rw [if_neg (by rw [hmr, hr0]; decide)] at h1
  have h2 := drainTick_single_fail cfg env r itm₁ hup hbs
    (by rw [hid₁]; exact hid) (by simpa [hitm₁, bumped] using hp1)
    (by simpa [hitm₁, bumped] using hp5) hnow hrem hreq
  rw [if_neg (by rw [hmr, hr₁]; decide)] at h2
  have h3 := drainTick_single_fail cfg env r itm₂ hup hbs
    (by rw [hid₂]; exact hid) (by simpa [hitm₂, hitm₁, bumped] using hp1)
    (by simpa [hitm₂, hitm₁, bumped] using hp5) hnow hrem hreq
  rw [if_pos (by rw [hmr, hr₂]; decide)] at h3
  simp only [runTicks]
  rw [h1]
  simp only []
  rw [h2]
  simp only []
  rw [h3]
  simp [hid₁, hid₂]

theorem delKey_mem {s : Store} {k : List Char} {e : List Char × Item}
    (h : e ∈ delKey s k) : e ∈ s ∧ e.1 ≠ k := by
  rw [delKey] at h
  have hm := List.mem_filter.mp h
  exact ⟨hm.1, by simpa using hm.2⟩

/-! ## Claims -/

/-- Claim C1, counterexample: the claim asserts that no interleaving of
drain steps — including the paths where `Remove` or `Requeue` themselves
return an error — makes a record vanish without a terminal transition.  It
is false: for a single buffered record whose apply fails with the retry
budget not exhausted, a step in which `Remove` succeeds and the following
`Requeue` returns an error leaves the store empty while the emitted event
is `requeued` — neither a successful apply nor a retry-exhaustion drop. -/
theorem claim_C1_counterexample :
    (drainStep 3 "f" 200 true false reposDown [(buildKey itemB, itemB)]
        { itemB with bucketKey := some (buildKey itemB) }).2.1 = [] ∧
    (drainStep 3 "f" 200 true false reposDown [(buildKey itemB, itemB)]
        { itemB with bucketKey := some (buildKey itemB) }).2.2 =
      .requeued "b" true false ∧
    containsID (drainStep 3 "f" 200 true false reposDown
        [(buildKey itemB, itemB)]
        { itemB with bucketKey := some (buildKey itemB) }).2.1 "b" = false := by
  decide

/-- Claim C1 (amended): durability of the buffer.  (i) A record is visible
in the store as soon as `Enqueue` returns, under its normalized id.
(ii) With a large enough limit, every stored record is observable in the
`GetBatch` result.  (iii) In a drain step over a stored record, the record
either undergoes a terminal transition (successful apply, or drop at
exhausted retry budget) or is still in the store afterwards — provided
`Requeue` does not fail after a successful `Remove`; the counterexample
shows the proviso cannot be dropped. -/
theorem claim_C1 :
    (∀ f : String, ∀ now : Int, ∀ s : Store, ∀ itm : Item,
      containsID (enqueue f now s itm) (itm.normalize f now).id = true) ∧
    (∀ limit : Int, ∀ s : Store, s.length ≤ batchLimit limit →
      ∀ e ∈ s, ∃ i ∈ getBatch limit s, i.id = e.2.id) ∧
    (∀ maxR : Int, ∀ f : String, ∀ now : Int, ∀ remOk reqOk : Bool,
      ∀ r : Repos, ∀ s : Store, ∀ itm : Item, itm.id ≠ "" →
      containsID s itm.id = true → (remOk = true → reqOk = true) →
      (drainStep maxR f now remOk reqOk r s itm).2.2 = .applied itm.id remOk ∨
      (drainStep maxR f now remOk reqOk r s itm).2.2 =
        .droppedMaxRetries itm.id remOk ∨
      containsID (drainStep maxR f now remOk reqOk r s itm).2.1 itm.id = true) := by
  refine ⟨fun f now s itm => enqueue_contains f now s itm, ?_, ?_⟩
  · intro limit s hlen e he
    rw [getBatch_all limit s hlen]
    exact ⟨_, List.mem_map_of_mem _ he, rfl⟩
  · intro maxR f now remOk reqOk r s itm hid hin hreq
    exact drainStep_no_silent_loss maxR f now remOk reqOk r s itm hid hin hreq

theorem claim_C1_witness :
    (drainStep 3 "f" 200 true true reposDown [(buildKey itemB, itemB)]
        { itemB with bucketKey := some (buildKey itemB) }).2.2 =
      .applied "b" true ∨
    (drainStep 3 "f" 200 true true reposDown [(buildKey itemB, itemB)]
        { itemB with bucketKey := some (buildKey itemB) }).2.2 =
      .droppedMaxRetries "b" true ∨
    containsID (drainStep 3 "f" 200 true true reposDown
        [(buildKey itemB, itemB)]
        { itemB with bucketKey := some (buildKey itemB) }).2.1 "b" = true :=
  claim_C1.2.2 3 "f" 200 true true reposDown [(buildKey itemB, itemB)]
    { itemB with bucketKey := some (buildKey itemB) } (by decide) (by decide)
    (fun _ => rfl)

/-- Claim C2: iteration order.  Byte-wise ordering of the physical keys
produced by `buildKey` (`"%d_%020d_%s"`) coincides with the numeric
ordering of the tuple `(priority, enqueued_at, id)` for records in the
normalized ranges; consequently `GetBatch` of a well-formed store returns
records sorted by that tuple.  The well-formedness invariant holds for the
empty store and is preserved by `Enqueue` and `Remove`. -/
theorem claim_C2 :
    (∀ a b : Item, InKeyRange a → InKeyRange b →
      (lexLt (buildKey a) (buildKey b) = true ↔ tupleLt a b)) ∧
    (∀ limit : Int, ∀ s : Store, storeWF s →
      List.Pairwise tupleLt (getBatch limit s)) ∧
    storeWF ([] : Store) ∧
    (∀ f : String, ∀ now : Int, ∀ s : Store, ∀ itm : Item, storeWF s →
      TimeOK now → (itm.timestamp = 0 ∨ TimeOK itm.timestamp) →
      storeWF (enqueue f now s itm)) ∧
    (∀ s : Store, ∀ itm : Item, storeWF s → storeWF (remove s itm)) := by
  refine ⟨buildKey_lt_iff, ?_, ?_, ?_, ?_⟩
  · intro limit s hs
    exact getBatch_sorted limit s hs
  · exact ⟨by simp, List.Pairwise.nil⟩
  · intro f now s itm hs hnow ht
    exact enqueue_WF f now s itm hs hnow ht
  · intro s itm hs
    exact remove_WF s itm hs

theorem claim_C2_witness :
    lexLt (buildKey itemA) (buildKey itemB) = true :=
  (claim_C2.1 itemA itemB (by decide) (by decide)).mpr (by decide)

/-- Claim C3: retry bound.  (i) When the apply of an item fails, the drain
step increments its retry counter by exactly one, removes and drops it if
the incremented counter reaches `max_retries`, and otherwise removes and
requeues it with a refreshed timestamp.  (ii) With the default
configuration (`max_retries = 3`) and an always-failing repository, a
record enqueued with zero retries is attempted on exactly three
consecutive ticks and then dropped, leaving the buffer empty.  Store
transactions are assumed to succeed (the oracles are `true`). -/
theorem claim_C3 :
    (∀ maxR : Int, ∀ f : String, ∀ now : Int, ∀ r : Repos, ∀ s : Store,
      ∀ itm : Item, ∀ e : ApplyErr, processItem f now r itm = .error e →
      ((maxR ≤ (itm.retries : Int) + 1 →
        drainStep maxR f now true true r s itm =
          (r, remove s { itm with retries := itm.retries + 1 },
            .droppedMaxRetries itm.id true)) ∧
       ((itm.retries : Int) + 1 < maxR →
        drainStep maxR f now true true r s itm =
          (r, requeue f now (remove s { itm with retries := itm.retries + 1 })
                { itm with retries := itm.retries + 1 },
            .requeued itm.id true true)))) ∧
    (∀ env : DrainEnv, ∀ r : Repos, ∀ itm : Item, r.up = false →
      itm.id ≠ "" → 1 ≤ itm.priority → itm.priority ≤ 5 → itm.retries = 0 →
      TimeOK (env.nowAt 0) → env.remOk 0 = true → env.reqOk 0 = true →
      runTicks cfgDefault env 3 (r, [(buildKey itm, itm)], []) =
        (r, [], [.requeued itm.id true true, .requeued itm.id true true,
          .droppedMaxRetries itm.id true]) ∧
      applyCount [DrainEvent.requeued itm.id true true,
        .requeued itm.id true true, .droppedMaxRetries itm.id true] = 3) := by
  constructor
  · intro maxR f now r s itm e hpi
    exact drainStep_fail_spec maxR f now r s itm e hpi
  · intro env r itm hup hid hp1 hp5 hr0 hnow hrem hreq
    exact ⟨three_ticks_drop env r itm hup hid hp1 hp5 hr0 hnow hrem hreq, rfl⟩

theorem claim_C3_witness :
    runTicks cfgDefault envOK 3 (reposDown, [(buildKey itemB, itemB)], []) =
      (reposDown, [], [.requeued "b" true true, .requeued "b" true true,
        .droppedMaxRetries "b" true]) ∧
    applyCount [DrainEvent.requeued "b" true true, .requeued "b" true true,
      .droppedMaxRetries "b" true] = 3 :=
  claim_C3.2 envOK reposDown itemB rfl (by decide) (by decide) (by decide) rfl
    (by decide) rfl rfl

/-- Claim C4, counterexample: the claim asserts that a task record
(priority 4) is drained before a profile record (priority 3).  It is
false: with a profile update enqueued at time 500 and a task create
enqueued at time 100 both in the store, `GetBatch` — and hence the drain
loop — yields the profile record first, because the lower priority value
sorts first in the key. -/
theorem claim_C4_counterexample :
    (getBatch 50 (putEntry (putEntry [] (buildKey itemB) itemB)
        (buildKey itemA) itemA)).map (fun i => i.id) = ["a", "b"] ∧
    itemA.entity = entityProfile ∧ itemA.priority = 3 ∧
    itemB.entity = entityTask ∧ itemB.priority = 4 ∧
    itemB.timestamp < itemA.timestamp := by
  decide

/-- Claim C4 (amended): priority precedence runs the other way.  Because
lower priority value means higher precedence and `BufferProfile` assigns 3
while `BufferTask` assigns 4, every profile record's key sorts strictly
before every task record's key regardless of enqueue times, and in any
batch drawn from a well-formed store a priority-3 record appears before
any priority-4 record. -/
theorem claim_C4 :
    (∀ p t : Item, InKeyRange p → InKeyRange t → p.priority = 3 →
      t.priority = 4 → lexLt (buildKey p) (buildKey t) = true) ∧
    (∀ limit : Int, ∀ s : Store, storeWF s →
      ∀ i j : Fin (getBatch limit s).length,
        ((getBatch limit s).get i).priority = 3 →
        ((getBatch limit s).get j).priority = 4 → (i : Nat) < (j : Nat)) := by
  constructor
  · intro p t hp ht hp3 ht4
    refine (buildKey_lt_iff p t hp ht).mpr ?_
    exact Or.inl (by omega)
  · intro limit s hs i j hi3 hj4
    have hp := getBatch_sorted limit s hs
    rcases lt_trichotomy (i : Nat) (j : Nat) with h | h | h
    · exact h
    · exfalso
      have : i = j := Fin.ext h
      subst this
      omega
    · exfalso
      have hR := List.pairwise_iff_get.mp hp j i (by exact h)
      rcases hR with hlt | ⟨heq, -⟩
      · omega
      · omega

theorem claim_C4_witness :
    lexLt (buildKey itemC) (buildKey itemD) = true :=
  claim_C4.1 itemC itemD (by decide) (by decide) rfl rfl

/-- Claim C5, counterexample: the claim asserts that a buffered item whose
payload fails to deserialize is removed by a single drain tick without
entering the retry/requeue path.  It is false: one online tick over a
store holding such an item leaves the item in the store with its retry
counter bumped to 1 and emits a `requeued` event. -/
theorem claim_C5_counterexample :
    containsID (drainTick (some true) cfgDefault envOK reposUp
      [(buildKey poisonItem, poisonItem)]).2.1 "p1" = true ∧
    (drainTick (some true) cfgDefault envOK reposUp
      [(buildKey poisonItem, poisonItem)]).2.2 = [.requeued "p1" true true] ∧
    (drainTick (some true) cfgDefault envOK reposUp
      [(buildKey poisonItem, poisonItem)]).1 = reposUp := by
  decide

/-- Claim C5 (amended): a payload that fails to deserialize is rejected by
`processItem` before any repository call (the repository state is
untouched and the error is the unmarshal error), but the drain loop treats
this like any other failure: the retry counter is bumped by one and the
item is requeued while under the retry budget, and dropped only once the
budget is exhausted — not dropped immediately. -/
theorem claim_C5 :
    (∀ f : String, ∀ now : Int, ∀ r : Repos, ∀ itm : Item,
      itm.entity = entityTask → decodeTask itm.data = none →
      processItem f now r itm = .error .decodeFailed) ∧
    (∀ f : String, ∀ now : Int, ∀ r : Repos, ∀ itm : Item,
      itm.entity = entityProfile → decodeUser itm.data = none →
      processItem f now r itm = .error .decodeFailed) ∧
    (∀ maxR : Int, ∀ f : String, ∀ now : Int, ∀ r : Repos, ∀ s : Store,
      ∀ itm : Item, processItem f now r itm = .error .decodeFailed →
      (((itm.retries : Int) + 1 < maxR →
        drainStep maxR f now true true r s itm =
          (r, requeue f now (remove s { itm with retries := itm.retries + 1 })
                { itm with retries := itm.retries + 1 },
            .requeued itm.id true true)) ∧
       (maxR ≤ (itm.retries : Int) + 1 →
        drainStep maxR f now true true r s itm =
          (r, remove s { itm with retries := itm.retries + 1 },
            .droppedMaxRetries itm.id true)))) := by
  refine ⟨processItem_poison_task, processItem_poison_profile, ?_⟩
  intro maxR f now r s itm hpi
  have h := drainStep_fail_spec maxR f now r s itm .decodeFailed hpi
  exact ⟨h.2, h.1⟩

theorem claim_C5_witness :
    processItem "f" 200 reposUp poisonItem = .error .decodeFailed :=
  claim_C5.1 "f" 200 reposUp poisonItem rfl rfl

/-- Claim C6, counterexample: the claim asserts that task `create` is
realized as upsert-by-id, so that a second apply of the same task-create
record succeeds.  It is false: `taskRepository.Create` is a plain `INSERT`
against the primary-key column, so creating `t1` and then applying the
same create again fails with a unique violation. -/
theorem claim_C6_counterexample :
    createTask reposUp taskT1 "f" 10 =
      .ok (reposT1, { taskT1 with createdAt := 10, updatedAt := 10 }) ∧
    createTask reposT1 { taskT1 with createdAt := 10, updatedAt := 10 }
      "f2" 20 = .error .duplicateKey := by
  decide

/-- Claim C6 (amended): idempotence holds for `(profile, update)` via
`Upsert` and for `(task, update)` via `Update` — a second apply at the
same instant succeeds and leaves the repository unchanged.  It fails for
`(task, create)` and `(task, delete)`: the second apply returns a
duplicate-key, respectively not-found, error (the state is unchanged, but
the result is not a success; `create` is a plain insert, not
upsert-by-id). -/
theorem claim_C6 :
    (∀ r : Repos, ∀ u : User, ∀ now : Int, ∀ r' : Repos,
      upsertUser r u now = .ok r' → upsertUser r' u now = .ok r') ∧
    (∀ r : Repos, ∀ t : Task, ∀ now : Int, ∀ r' : Repos,
      updateTask r t now = .ok r' → updateTask r' t now = .ok r') ∧
    (∀ r : Repos, ∀ t : Task, ∀ f : String, ∀ now : Int, ∀ r' : Repos,
      ∀ t' : Task, ∀ f' : String, ∀ now' : Int, t.id ≠ "" →
      createTask r t f now = .ok (r', t') →
      createTask r' t' f' now' = .error .duplicateKey) ∧
    (∀ r : Repos, ∀ i : String, ∀ r' : Repos,
      deleteTask r i = .ok r' → deleteTask r' i = .error .taskNotFound) := by
  refine ⟨upsertUser_idem, updateTask_idem, ?_, deleteTask_twice⟩
  intro r t f now r' t' f' now' hid h
  exact createTask_dup r t f now r' t' hid h f' now'

theorem claim_C6_witness :
    upsertUser reposU1 userU1 5 = .ok reposU1 :=
  claim_C6.1 reposUp userU1 5 reposU1 (by decide)

/-- Claim C7, counterexample: the claim asserts that deleting a missing
task is treated as success by `DeleteTask` and counted as a successful
apply by the drain path.  It is false: for an id absent from the row
store, `DeleteTask` returns the not-found error to its caller without
buffering, and a drained `(task, delete)` record for the missing row is
requeued with its retry counter bumped, not removed as applied. -/
theorem claim_C7_counterexample :
    deleteTaskUC (some true) "f" 5 reposUp [] "t9" =
      (reposUp, [], some .taskNotFound) ∧
    (drainTick (some true) cfgDefault envOK reposUp
      [(buildKey delItem, delItem)]).2.2 = [.requeued "t9" true true] ∧
    containsID (drainTick (some true) cfgDefault envOK reposUp
      [(buildKey delItem, delItem)]).2.1 "t9" = true := by
  decide

/-- Claim C7 (amended): delete of a missing row is an error everywhere.
The repository returns `ErrTaskNotFound`; `DeleteTask` propagates that
error to its caller (never buffering in that case); and the drain path's
apply of a `(task, delete)` record for a missing row fails with the same
error, so it is charged against the retry budget rather than counted as a
success. -/
theorem claim_C7 :
    (∀ r : Repos, ∀ i : String, r.up = true → getAssoc r.tasks i = none →
      deleteTask r i = .error .taskNotFound) ∧
    (∀ mon : Option Bool, ∀ f : String, ∀ now : Int, ∀ r : Repos,
      ∀ s : Store, ∀ i : String, r.up = true → getAssoc r.tasks i = none →
      deleteTaskUC mon f now r s i = (r, s, some .taskNotFound)) ∧
    (∀ f : String, ∀ now : Int, ∀ r : Repos, ∀ itm : Item, ∀ t : Task,
      itm.entity = entityTask → itm.operation = operationDelete →
      itm.data = .taskPayload t → r.up = true →
      getAssoc r.tasks t.id = none →
      processItem f now r itm = .error (.repoErr .taskNotFound)) := by
  refine ⟨deleteTask_missing, ?_, processItem_delete_missing⟩
  intro mon f now r s i hup hmiss
  rw [deleteTaskUC, deleteTask_missing r i hup hmiss]
  simp

theorem claim_C7_witness :
    deleteTaskUC (some true) "g" 6 reposUp [] "t9" =
      (reposUp, [], some .taskNotFound) :=
  claim_C7.2.1 (some true) "g" 6 reposUp [] "t9" rfl rfl

/-- Claim C8, counterexample: the claim asserts that `Store.Requeue(item)`
leaves the store in the same state as `Remove(item)` followed by
`Enqueue` of the timestamp-refreshed item, the item ending up exactly
once with the old entry gone.  It is false: `Requeue` performs no
removal, so requeuing an item that is still stored under its handle
leaves two entries carrying the item's id (the old one under the old key
included), while remove-then-enqueue leaves one. -/
theorem claim_C8_counterexample :
    (requeue "f" 900 [(buildKey itemA, itemA)]
      { itemA with bucketKey := some (buildKey itemA) }).length = 2 ∧
    ((requeue "f" 900 [(buildKey itemA, itemA)]
        { itemA with bucketKey := some (buildKey itemA) }).filter
      (fun e => e.2.id == "a")).length = 2 ∧
    (enqueue "f" 900 (remove [(buildKey itemA, itemA)]
        { itemA with bucketKey := some (buildKey itemA) })
      { itemA with bucketKey := none, timestamp := 900 }).length = 1 ∧
    (requeue "f" 900 [(buildKey itemA, itemA)]
        { itemA with bucketKey := some (buildKey itemA) }) ≠
      enqueue "f" 900 (remove [(buildKey itemA, itemA)]
          { itemA with bucketKey := some (buildKey itemA) })
        { itemA with bucketKey := none, timestamp := 900 } := by
  decide

/-- Claim C8 (amended): `Store.Requeue` equals `Enqueue` of the item with
its handle cleared and its timestamp refreshed — with no removal; the
remove-then-enqueue composite of the spec is what the drain loop obtains
by calling `Remove` explicitly before `Requeue`.  After that composite the
item is again visible under its id, and every entry either carries the new
key or differs from the old handle. -/
theorem claim_C8 :
    (∀ f : String, ∀ now : Int, ∀ s : Store, ∀ itm : Item,
      requeue f now s itm =
        enqueue f now s { itm with bucketKey := none, timestamp := now }) ∧
    (∀ f : String, ∀ now : Int, ∀ s : Store, ∀ itm : Item, itm.id ≠ "" →
      containsID (requeue f now (remove s itm) itm) itm.id = true) ∧
    (∀ f : String, ∀ now : Int, ∀ s : Store, ∀ itm : Item, ∀ k : List Char,
      itm.bucketKey = some k →
      ∀ e ∈ requeue f now (remove s itm) itm,
        e.1 = buildKey (({ itm with bucketKey := none, timestamp := now
          } : Item).normalize f now) ∨ e.1 ≠ k) := by
  refine ⟨fun f now s itm => rfl, ?_, ?_⟩
  · intro f now s itm hid
    exact requeue_contains f now (remove s itm) itm hid
  · intro f now s itm k hbk e he
    rw [requeue, enqueue] at he
    rcases putEntry_mem _ _ _ e he with rfl | he
    · exact Or.inl rfl
    · rw [remove, hbk] at he
      exact Or.inr (delKey_mem he).2

theorem claim_C8_witness :
    containsID (requeue "f" 900
      (remove [(buildKey itemA, itemA)]
        { itemA with bucketKey := some (buildKey itemA) })
      { itemA with bucketKey := some (buildKey itemA) }) "a" = true :=
  claim_C8.2.1 "f" 900 [(buildKey itemA, itemA)]
    { itemA with bucketKey := some (buildKey itemA) } (by decide)

/-- Claim C9: health endpoint.  `GET /health` responds 200 exactly when
both primary stores are up in the snapshot (`PostgreSQL && Redis`, the
same predicate as `IsOnline`); otherwise it responds 503 with code
`DEGRADED`; the services payload is the same in both branches and the
handler leaves the snapshot unchanged (no side effects). -/
theorem claim_C9 : ∀ st : Status, ∀ now : Int,
    ((healthCheck st now).1 = st) ∧
    ((healthCheck st now).2.payload =
      { timestamp := now, postgresql := st.postgreSQL, redis := st.redis
        bufferOnline := st.buffer, bufferSize := st.bufferSize }) ∧
    ((healthCheck st now).2.status = 200 ↔ isOnline st = true) ∧
    ((healthCheck st now).2.status = 200 ↔
      (st.postgreSQL = true ∧ st.redis = true)) ∧
    (¬ (st.postgreSQL = true ∧ st.redis = true) →
      (healthCheck st now).2.status = 503 ∧
      (healthCheck st now).2.errCode = some ("DEGRADED")) := by
  intro st now
  obtain ⟨p, rd, b, bs, lc⟩ := st
  cases p <;> cases rd
  · exact ⟨rfl, rfl, by simp [healthCheck, isOnline],
      by simp [healthCheck], fun _ => ⟨rfl, rfl⟩⟩
  · exact ⟨rfl, rfl, by simp [healthCheck, isOnline],
      by simp [healthCheck], fun _ => ⟨rfl, rfl⟩⟩
  · exact ⟨rfl, rfl, by simp [healthCheck, isOnline],
      by simp [healthCheck], fun _ => ⟨rfl, rfl⟩⟩
  · exact ⟨rfl, rfl, by simp [healthCheck, isOnline],
      by simp [healthCheck], fun hc => absurd ⟨rfl, rfl⟩ hc⟩

theorem claim_C9_witness :
    (healthCheck stBad 7).2.status = 503 ∧
    (healthCheck stBad 7).2.errCode = some ("DEGRADED") :=
  (claim_C9 stBad 7).2.2.2.2 (by decide)

/-- Claim C10: with no health monitor configured (`monitor` nil), the
buffer subsystem behaves as permanently online: a drain tick is identical
to one under a monitor reporting online and never takes the offline-skip
branch, and `BufferOperation` always attempts the immediate apply first —
returning without touching the store on success and enqueuing only after
a failed attempt. -/
theorem claim_C10 : ∀ cfg : ProcessorConfig, ∀ env : DrainEnv, ∀ r : Repos,
    ∀ s : Store, ∀ f : String, ∀ now : Int, ∀ itm : Item,
    (drainTick none cfg env r s = drainTick (some true) cfg env r s) ∧
    (DrainEvent.skippedOffline ∉ (drainTick none cfg env r s).2.2) ∧
    (bufferOperation none f now r s itm =
      bufferOperation (some true) f now r s itm) ∧
    (∀ r' : Repos, processItem f now r itm = .ok r' →
      bufferOperation none f now r s itm = (r', s, .appliedImmediately)) ∧
    (∀ e : ApplyErr, processItem f now r itm = .error e →
      bufferOperation none f now r s itm =
        (r, enqueue f now s itm, .enqueued)) := by
  intro cfg env r s f now itm
  refine ⟨rfl, ?_, rfl, ?_, ?_⟩
  · exact drainItems_no_skip cfg.maxRetries env _ 0 r s
  · intro r' hpi
    rw [bufferOperation, if_pos (Or.inl rfl), hpi]
  · intro e hpi
    rw [bufferOperation, if_pos (Or.inl rfl), hpi]

theorem claim_C10_witness :
    bufferOperation none "f" 1 reposUp [] itemA =
      (reposU1At1, [], .appliedImmediately) :=
  (claim_C10 cfgDefault envOK reposUp [] "f" 1 itemA).2.2.2.1 reposU1At1
    (by decide)

end Fastygo
